import Mathlib

/-!
CAN bus controller: bring-up / bring-down of named bus interfaces

A shallow embedding of `automotive/can/1.0/default/CanController.cpp`
(`isValidName`, `CanController::upInterface`, `unregisterCanBusService`,
`CanController::downInterface`) together with the properties of the controller
that are established about it.

The controller state is the map `mCanBuses`.  The bus objects (`CanBus::up`,
`CanBus::down`, `registerAsService`) and the service manager are collaborators:
the outcome of every collaborator call is an explicit argument of the operation
that makes the call, and every call made is appended to a log.
-/

namespace CanController

/-! ## Regular expressions (the fragment used by `nameRE`) -/

/-- Regular expressions of the ECMAScript grammar of `std::regex`, restricted to the
constructs that occur in `nameRE`: the anchors, a bracket expression made of character
ranges, a bounded repetition and concatenation. -/
inductive Regex where
  /-- The assertion written as a caret: the start of the input. -/
  | bol
  /-- The assertion written as a dollar sign: the end of the input. -/
  | eol
  /-- A bracket expression `[x-y...]`; a single character `c` is the range `c-c`. -/
  | bracket (ranges : List (Char × Char))
  /-- The bounded repetition `r{lo,hi}`. -/
  | bounded (r : Regex) (lo hi : Nat)
  /-- Concatenation. -/
  | seq (r s : Regex)

/-- A position of the matcher in the input: the number of characters already consumed and
the characters that are left. -/
abbrev Cursor := Nat × List Char

/-- Membership of a character in a bracket expression: ranges compare character codes. -/
def inRanges (c : Char) (ranges : List (Char × Char)) : Bool :=
  ranges.any (fun r => decide (r.1.toNat ≤ c.toNat) && decide (c.toNat ≤ r.2.toNat))

/-- All ways of applying the step `f` between `lo` and `hi` times in a row. -/
def iterate (f : Cursor → List Cursor) : Nat → Nat → Cursor → List Cursor
  | lo, 0, st => if lo = 0 then [st] else []
  | lo, hi + 1, st =>
    (if lo = 0 then [st] else []) ++ (f st).flatMap (iterate f (lo - 1) hi)

/-- Backtracking semantics: every cursor at which a match of the expression that starts at
the given cursor can end. The anchors are those of the default flags of `std::regex` (no
`multiline`): start of the input and end of the input. -/
def Regex.run : Regex → Cursor → List Cursor
  | .bol => fun st => if st.1 = 0 then [st] else []
  | .eol => fun st => if st.2.isEmpty then [st] else []
  | .bracket ranges => fun st =>
    match st.2 with
    | [] => []
    | c :: rest => if inRanges c ranges then [(st.1 + 1, rest)] else []
  | .bounded r lo hi => iterate r.run lo hi
  | .seq r s => fun st => (r.run st).flatMap s.run

/-- The function `std::regex_match`: the expression has to match the whole input. -/
def regex_match (input : List Char) (re : Regex) : Bool :=
  (re.run (0, input)).any (fun st => st.2.isEmpty)

/-- The bracket expression `[a-zA-Z0-9_]`. -/
def nameClass : List (Char × Char) :=
  [('a', 'z'), ('A', 'Z'), ('0', '9'), ('_', '_')]

/-- The static `nameRE` of `isValidName`: `^[a-zA-Z0-9_]{1,32}$`. -/
def nameRE : Regex :=
  .seq .bol (.seq (.bounded (.bracket nameClass) 1 32) .eol)

/-- The function `isValidName` of `CanController.cpp`. A `std::string` is a sequence of
bytes and the name is given here as its sequence of characters; for this expression the two
readings agree, since an ASCII character is one byte and a character outside ASCII is encoded
in bytes that the bracket expression rejects. -/
def isValidName (name : String) : Bool :=
  regex_match name.toList nameRE

/-! ## Interface types -/

/-- Modelled from the spec: the result codes of `ICanController::Result`. The enumeration is
declared in the interface description, which is not among the sources; these are the values
that the controller and its conformance tests name. -/
inductive Result where
  | OK
  | UNKNOWN_ERROR
  | INVALID_STATE
  | NOT_SUPPORTED
  | BAD_INTERFACE_ID
  | BAD_ADDRESS
  | BAD_SERVICE_NAME
  deriving DecidableEq

/-- Modelled from the spec: `BusConfig::InterfaceId::Socketcan`, addressed by interface name
or (not handled by `upInterface`) by serial number. -/
inductive Socketcan where
  | ifname (name : String)
  | serialno (serials : List String)
  deriving DecidableEq

/-- Modelled from the spec: `BusConfig::InterfaceId::Slcan`, addressed by tty name or (not
handled by `upInterface`) by serial number. -/
inductive Slcan where
  | ttyname (name : String)
  | serialno (serials : List String)
  deriving DecidableEq

/-- Modelled from the spec: the tagged union `BusConfig::InterfaceId`. `upInterface` tests
the discriminators `socketcan`, `virtualif` and `slcan`; `indexed` stands for the
discriminator that falls through to the final `else`. -/
inductive InterfaceId where
  | virtualif (ifname : String)
  | socketcan (id : Socketcan)
  | slcan (id : Slcan)
  | indexed (index : Nat)
  deriving DecidableEq

/-- Modelled from the spec: `ICanController::BusConfig`, the fields read by `upInterface`. -/
structure BusConfig where
  name : String
  interfaceId : InterfaceId
  bitrate : Nat
  deriving DecidableEq

/-- The three bus classes that `upInterface` instantiates, with their constructor
arguments. -/
inductive BusObject where
  | CanBusNative (ifname : String) (bitrate : Nat)
  | CanBusVirtual (ifname : String)
  | CanBusSlcan (ttyname : String) (bitrate : Nat)
  deriving DecidableEq

/-- A bus object behind an `sp<CanBus>`: `id` is the identity of the object (two objects
made by two `new` expressions differ in it). -/
structure CanBus where
  id : Nat
  object : BusObject
  deriving DecidableEq

/-! ## The map `std::map<std::string, sp<CanBus>>` -/

/-- The entries of a `std::map` from names to bus objects, in key order. -/
abbrev StdMap := List (String × CanBus)

namespace StdMap

/-- The call `m.find(key)`: the mapped object, or `none` for `m.end()`. -/
def find : StdMap → String → Option CanBus
  | [], _ => none
  | (k, v) :: rest, key => if k = key then some v else find rest key

/-- The assignment `m[key] = value`: overwrites the entry of `key`, or inserts one at its
place in key order. -/
def assign : StdMap → String → CanBus → StdMap
  | [], key, value => [(key, value)]
  | (k, v) :: rest, key, value =>
    if key < k then (key, value) :: (k, v) :: rest
    else if k = key then (k, value) :: rest
    else (k, v) :: assign rest key value

/-- The map that is left after `m.extract(key)` (the node handle is `find m key`). The keys
of a `std::map` are unique, so that this removes the one entry of `key`. -/
def erase : StdMap → String → StdMap
  | [], _ => []
  | (k, v) :: rest, key => if k = key then erase rest key else (k, v) :: erase rest key

/-- The call `m.extract(key)`: the mapped object of the node handle (`none` for an empty
handle) and the map without that key. -/
def extract (m : StdMap) (key : String) : Option CanBus × StdMap :=
  (find m key, erase m key)

end StdMap

/-! ## Collaborators -/

/-- A call made by the controller on a collaborator, with the outcome it had. -/
inductive Call where
  /-- The call `busService->setErrorCallback(f)` where `f` runs `downInterface(name)`. -/
  | setErrorCallback (bus : CanBus) (name : String)
  /-- The call `busService->up()`. -/
  | up (bus : CanBus) (result : Result)
  /-- The call `busService->registerAsService(name)`; `ok` is `status == OK`. -/
  | registerAsService (bus : CanBus) (name : String) (ok : Bool)
  /-- The call `busService->down()`. -/
  | down (bus : CanBus) (ok : Bool)
  /-- The call `IServiceManager::getService()`; `available` is `manager != nullptr`. -/
  | getService (available : Bool)
  /-- The call `manager->tryUnregister(ICanBus::descriptor, name, busService)`; the reply is
  `none` when the transaction failed (`!res.isOk()`). -/
  | tryUnregister (name : String) (bus : CanBus) (reply : Option Bool)
  deriving DecidableEq

/-- The controller together with its environment. -/
structure World where
  /-- The member `CanController::mCanBuses`. -/
  mCanBuses : StdMap
  /-- The `ICanBus` instances known to the service manager, by instance name. -/
  directory : StdMap
  /-- The collaborator calls made so far, oldest first. -/
  log : List Call
  /-- The number of bus objects constructed so far; the next object gets it as identity. -/
  allocated : Nat
  deriving DecidableEq

/-- Appends a collaborator call to the log. -/
def World.record (w : World) (c : Call) : World :=
  { w with log := w.log ++ [c] }

/-- The outcomes of the collaborator calls that one `upInterface` may make. -/
structure UpOutcome where
  /-- What `busService->up()` returns. -/
  up : Result
  /-- Whether `busService->registerAsService(name)` returns `OK`. -/
  registerAsService : Bool
  /-- What `busService->down()` returns. -/
  down : Bool
  deriving DecidableEq

/-- The outcomes of the collaborator calls that one `downInterface` may make. -/
structure DownOutcome where
  /-- Whether `IServiceManager::getService()` returns a manager. -/
  getService : Bool
  /-- The reply of `manager->tryUnregister(...)`; `none` when `!res.isOk()`. -/
  tryUnregister : Option Bool
  /-- What `busService->down()` returns. -/
  down : Bool
  deriving DecidableEq

/-- Modelled from the spec: the Discovery Directory operation `register(name, instance)`,
reached through `busService->registerAsService(name)`. The service manager is not among the
sources; a registration that succeeds makes the name resolve to the instance, one that fails
leaves the directory as it was. -/
def registerAsService (ok : Bool) (busService : CanBus) (name : String) (w : World) :
    Bool × World :=
  let w := w.record (.registerAsService busService name ok)
  if ok then (true, { w with directory := StdMap.assign w.directory name busService })
  else (false, w)

/-- Modelled from the spec: the Discovery Directory operation `unregister(name, instance)`,
reached through `manager->tryUnregister(ICanBus::descriptor, name, busService)`. The service
manager is not among the sources; a reply of `true` removes the name from the directory, any
other outcome leaves the directory as it was. -/
def tryUnregister (reply : Option Bool) (name : String) (busService : CanBus) (w : World) :
    Option Bool × World :=
  let w := w.record (.tryUnregister name busService reply)
  if reply = some true then (reply, { w with directory := StdMap.erase w.directory name })
  else (reply, w)

/-! ## The controller -/

/-- The dispatch of `upInterface` on the interface identifier (the `if` chain that fills
`busService`): the object constructed, or the result returned instead. -/
def newBusService (config : BusConfig) (id : Nat) : Except Result CanBus :=
  match config.interfaceId with
  | .socketcan (.ifname ifname) => .ok ⟨id, .CanBusNative ifname config.bitrate⟩
  | .socketcan (.serialno _) => .error .BAD_INTERFACE_ID
  | .virtualif ifname => .ok ⟨id, .CanBusVirtual ifname⟩
  | .slcan (.ttyname ttyname) => .ok ⟨id, .CanBusSlcan ttyname config.bitrate⟩
  | .slcan (.serialno _) => .error .BAD_INTERFACE_ID
  | .indexed _ => .error .NOT_SUPPORTED

/-- The method `CanController::upInterface`. -/
def upInterface (o : UpOutcome) (config : BusConfig) (w : World) : Result × World :=
  if !isValidName config.name then (.BAD_SERVICE_NAME, w)
  else if (StdMap.find w.mCanBuses config.name).isSome then (.INVALID_STATE, w)
  else
    match newBusService config w.allocated with
    | .error result => (result, w)
    | .ok busService =>
      let w := { w with allocated := w.allocated + 1 }
      let w := w.record (.setErrorCallback busService config.name)
      let result := o.up
      let w := w.record (.up busService result)
      if result ≠ .OK then (result, w)
      else
        let (registered, w) := registerAsService o.registerAsService busService config.name w
        if !registered then
          let w := w.record (.down busService o.down)
          (.BAD_SERVICE_NAME, w)
        else
          (.OK, { w with mCanBuses := StdMap.assign w.mCanBuses config.name busService })

/-- The function `unregisterCanBusService`. -/
def unregisterCanBusService (o : DownOutcome) (name : String) (busService : CanBus)
    (w : World) : Bool × World :=
  let w := w.record (.getService o.getService)
  if !o.getService then (false, w)
  else
    let (res, w) := tryUnregister o.tryUnregister name busService w
    match res with
    | none => (false, w)
    | some removed => (removed, w)

/-- The method `CanController::downInterface`. -/
def downInterface (o : DownOutcome) (name : String) (w : World) : Bool × World :=
  match StdMap.extract w.mCanBuses name with
  | (none, _) => (false, w)
  | (some busService, rest) =>
    let w := { w with mCanBuses := rest }
    let success := true
    let (unregistered, w) := unregisterCanBusService o name busService w
    let success := if !unregistered then false else success
    let w := w.record (.down busService o.down)
    let success := if !o.down then false else success
    (success, w)

/-- The state of a freshly started controller process. -/
def World.initial : World :=
  { mCanBuses := [], directory := [], log := [], allocated := 0 }

/-- The collaborator calls made between the state `before` and the later state `after`. -/
def callsSince (before after : World) : List Call :=
  after.log.drop before.log.length

/-- Whether a call is a deactivation (`down()`). -/
def Call.isDown : Call → Bool
  | .down _ _ => true
  | _ => false

/-- Whether a call is a registration in the directory (`registerAsService`). -/
def Call.isRegistration : Call → Bool
  | .registerAsService _ _ _ => true
  | _ => false

/-- Whether a call is `IServiceManager::getService()`, the first step of every
`unregisterCanBusService`. -/
def Call.isGetService : Call → Bool
  | .getService _ => true
  | _ => false

/-- Whether a call is `manager->tryUnregister(...)`. -/
def Call.isTryUnregister : Call → Bool
  | .tryUnregister _ _ _ => true
  | _ => false

/-- The bus object that a call is made on or about; `getService` concerns none. -/
def Call.busOf : Call → Option CanBus
  | .setErrorCallback bus _ => some bus
  | .up bus _ => some bus
  | .registerAsService bus _ _ => some bus
  | .down bus _ => some bus
  | .getService _ => none
  | .tryUnregister _ bus _ => some bus

/-- Whether a call is `setErrorCallback`. -/
def Call.isSetErrorCallback : Call → Bool
  | .setErrorCallback _ _ => true
  | _ => false

/-- Whether a call is the activation `up()`. -/
def Call.isUp : Call → Bool
  | .up _ _ => true
  | _ => false

/-- Runs the function object that a `setErrorCallback` call installed, the lambda
`[this, name = config.name]() { downInterface(name); }`: it calls `downInterface` with the
captured name and drops the result. Other calls install nothing to run. -/
def Call.invokeErrorCallback (o : DownOutcome) : Call → World → World
  | .setErrorCallback _ name, w => (downInterface o name w).2
  | _, w => w

/-- The keys of a map. -/
def StdMap.keys (m : StdMap) : List String :=
  m.map Prod.fst

/-! ## Supported interface types -/

/-- Modelled from the spec: the transport kinds of `ICanController::InterfaceType`. The
enumeration is declared in the interface description, which is not among the sources; these
are the values that the controller and its conformance tests name. -/
inductive InterfaceType where
  | VIRTUAL
  | SOCKETCAN
  | SLCAN
  | INDEXED
  deriving DecidableEq

/-- The method `CanController::getSupportedInterfaceTypes`: hands the list to the callback
`hidl_cb`. -/
def getSupportedInterfaceTypes {α : Type} (hidl_cb : List InterfaceType → α) (w : World) :
    α × World :=
  (hidl_cb [.VIRTUAL, .SOCKETCAN, .SLCAN], w)

/-- Modelled from the spec: the transport kind of an interface identifier, that is the
interface type that its discriminator stands for. -/
def InterfaceId.kind : InterfaceId → InterfaceType
  | .virtualif _ => .VIRTUAL
  | .socketcan _ => .SOCKETCAN
  | .slcan _ => .SLCAN
  | .indexed _ => .INDEXED

/-! ## Sequences of operations -/

/-- A request to the controller, with the outcomes of the collaborator calls it makes. -/
inductive Op where
  | up (o : UpOutcome) (config : BusConfig)
  | down (o : DownOutcome) (name : String)

/-- The state after one request. -/
def Op.step (w : World) : Op → World
  | .up o config => (upInterface o config w).2
  | .down o name => (downInterface o name w).2

/-- The state after a sequence of requests, the first of the list first. -/
def run (ops : List Op) (w : World) : World :=
  ops.foldl Op.step w

/-- What the log and the directory hold for an entry `name ↦ bus` of the registry: the
activation `up()` of `bus` returned `OK`; its registration under `name` succeeded and no call
on or about `bus` (no `tryUnregister`, no `down()`) has been made since; and the directory
resolves `name` to `bus`. -/
def EntryRegistered (w : World) (name : String) (bus : CanBus) : Prop :=
  Call.up bus .OK ∈ w.log ∧
    (∃ before since, w.log = before ++ Call.registerAsService bus name true :: since ∧
      ∀ c ∈ since, c.busOf ≠ some bus) ∧
    StdMap.find w.directory name = some bus

/-- The invariant of the registry: the bus objects in it have been constructed, no bus object
is held under two names, and every entry is registered. -/
def RegistryInvariant (w : World) : Prop :=
  (∀ name bus, StdMap.find w.mCanBuses name = some bus → bus.id < w.allocated) ∧
    (∀ name other bus, StdMap.find w.mCanBuses name = some bus →
      StdMap.find w.mCanBuses other = some bus → name = other) ∧
    (∀ name bus, StdMap.find w.mCanBuses name = some bus → EntryRegistered w name bus)

/-! ## Sample inputs (the configurations of the conformance tests) -/

/-- The virtual bus `dummy` on `vcan57`. -/
def dummy57 : BusConfig := ⟨"dummy", .virtualif "vcan57", 0⟩

/-- The virtual bus `dummy` on `vcan73`. -/
def dummy73 : BusConfig := ⟨"dummy", .virtualif "vcan73", 0⟩

/-- A virtual bus with the empty name. -/
def unnamed57 : BusConfig := ⟨"", .virtualif "vcan57", 0⟩

/-- Every collaborator call of a bring-up succeeds. -/
def allUp : UpOutcome := ⟨.OK, true, true⟩

/-- Every collaborator call of a bring-down succeeds. -/
def allDown : DownOutcome := ⟨true, some true, true⟩

/-- The bus object that the first bring-up of a process constructs for `dummy57`. -/
def bus57 : CanBus := ⟨0, .CanBusVirtual "vcan57"⟩

/-- A world in which `dummy` is up on `vcan57`. -/
def dummyIsUp : World :=
  { mCanBuses := [("dummy", bus57)], directory := [("dummy", bus57)], log := [], allocated := 1 }

/-- The configuration of the compatibility test, as a socketcan bus given by serial
numbers. -/
def compatSocketcanSerial : BusConfig :=
  ⟨"compattestsrv", .socketcan (.serialno ["dummy", "dummier"]), 125000⟩

/-- The configuration of the compatibility test, as an indexed bus. -/
def compatIndexed : BusConfig := ⟨"compattestsrv", .indexed 0, 125000⟩

/-- A virtual bus with the 33-character name of the conformance test `FailBadName`. -/
def longName57 : BusConfig := ⟨"ab012345678901234567890123456789c", .virtualif "vcan57", 0⟩

/-- The unregistration fails for want of a manager, the deactivation succeeds. -/
def noManager : DownOutcome := ⟨false, none, true⟩

/-- The bus `dummy` is brought up on `vcan73` and taken down; it is brought up again on
`vcan57`, and a further bring-up of it on `vcan73` is refused; a bus that is not up is taken
down. -/
def sampleOps : List Op :=
  [.up allUp dummy73, .down allDown "dummy", .up allUp dummy57, .up allUp dummy73,
    .down noManager "imnotup"]

/-- The bus object that `sampleOps` leaves registered as `dummy`: the second one
constructed. -/
def secondBus57 : CanBus := ⟨1, .CanBusVirtual "vcan57"⟩

/-- The virtual bus `dummy` on `vcan57` with a bitrate of 125000. -/
def dummy57Fast : BusConfig := ⟨"dummy", .virtualif "vcan57", 125000⟩

/-- The native bus `can_a` on `can0` at 500000 bit/s. -/
def nativeCan0 : BusConfig := ⟨"can_a", .socketcan (.ifname "can0"), 500000⟩

/-! ## The naming rule -/

theorem uint32_le_iff_toNat (a b : UInt32) : a ≤ b ↔ a.toNat ≤ b.toNat := by
  rw [UInt32.le_def]; exact Iff.rfl

theorem char_eq_underscore_iff (c : Char) : c = '_' ↔ c.toNat = 95 := by
  constructor
  · rintro rfl; rfl
  · intro h
    rw [← Char.ofNat_toNat c, h]

/-- The bracket expression of `nameRE` accepts the ASCII letters, the ASCII digits and the
underscore, and nothing else. -/
theorem inRanges_nameClass (c : Char) :
    inRanges c nameClass = true ↔ (c.isAlpha = true ∨ c.isDigit = true ∨ c = '_') := by
  have h1 : (97 : UInt32).toNat = 97 := rfl
  have h2 : (122 : UInt32).toNat = 122 := rfl
  have h3 : (65 : UInt32).toNat = 65 := rfl
  have h4 : (90 : UInt32).toNat = 90 := rfl
  have h5 : (48 : UInt32).toNat = 48 := rfl
  have h6 : (57 : UInt32).toNat = 57 := rfl
  have ha : ('a' : Char).toNat = 97 := rfl
  have hz : ('z' : Char).toNat = 122 := rfl
  have hA : ('A' : Char).toNat = 65 := rfl
  have hZ : ('Z' : Char).toNat = 90 := rfl
  have h0 : ('0' : Char).toNat = 48 := rfl
  have h9 : ('9' : Char).toNat = 57 := rfl
  have hu : ('_' : Char).toNat = 95 := rfl
  rw [char_eq_underscore_iff]
  simp only [inRanges, nameClass, List.any_cons, List.any_nil, Bool.or_false, Bool.or_eq_true,
    Bool.and_eq_true, decide_eq_true_eq, Char.isAlpha, Char.isUpper, Char.isLower, Char.isDigit,
    ge_iff_le, uint32_le_iff_toNat, h1, h2, h3, h4, h5, h6, ha, hz, hA, hZ, h0, h9, hu]
  have hc : c.val.toNat = c.toNat := rfl
  rw [hc]
  omega

/-- A bounded repetition of a bracket expression reaches the end of the input exactly when
the number of characters left is within the bounds and all of them are in the bracket
expression. -/
theorem iterate_bracket_reaches_end (ranges : List (Char × Char)) :
    ∀ (hi lo p : Nat) (s : List Char),
      (∃ st ∈ iterate (Regex.bracket ranges).run lo hi (p, s), st.2 = []) ↔
        (lo ≤ s.length ∧ s.length ≤ hi ∧ ∀ c ∈ s, inRanges c ranges = true) := by
  intro hi
  induction hi with
  | zero =>
    intro lo p s
    by_cases hlo : lo = 0
    · subst hlo
      cases s <;> simp [iterate]
    · simp only [iterate, hlo, if_false, List.not_mem_nil, false_and, exists_false, false_iff]
      rintro ⟨h1, h2, _⟩
      omega
  | succ hi ih =>
    intro lo p s
    cases s with
    | nil =>
      by_cases hlo : lo = 0 <;> simp [iterate, Regex.run, hlo]
    | cons c rest =>
      by_cases hc : inRanges c ranges = true
      · have key := ih (lo - 1) (p + 1) rest
        by_cases hlo : lo = 0
        · subst hlo
          simp only [iterate, Regex.run, hc, if_true, List.flatMap_cons, List.flatMap_nil,
            List.append_nil, List.mem_append, List.mem_singleton] at key ⊢
          constructor
          · rintro ⟨st, hst | hst, hnil⟩
            · subst hst; simp at hnil
            · have := key.mp ⟨st, hst, hnil⟩
              simpa [hc] using this.2
          · intro h
            simp [hc] at h
            obtain ⟨st, hst, hnil⟩ := key.mpr ⟨by omega, h.1, h.2⟩
            exact ⟨st, Or.inr hst, hnil⟩
        · simp only [iterate, Regex.run, hc, hlo, if_true, if_false, List.flatMap_cons,
            List.flatMap_nil, List.append_nil, List.nil_append] at key ⊢
          rw [key]
          simp only [List.length_cons, List.mem_cons, forall_eq_or_imp, hc, true_and]
          constructor
          · rintro ⟨h1, h2, h3⟩
            exact ⟨by omega, by omega, h3⟩
          · rintro ⟨h1, h2, h3⟩
            exact ⟨by omega, by omega, h3⟩
      · by_cases hlo : lo = 0 <;> simp [iterate, Regex.run, hc, hlo]

/-- The naming rule in the words of the data model, against the regular expression. -/
theorem isValidName_spec (name : String) :
    isValidName name = true ↔
      (1 ≤ name.length ∧ name.length ≤ 32 ∧
        ∀ c ∈ name.toList, c.isAlpha = true ∨ c.isDigit = true ∨ c = '_') := by
  have key := iterate_bracket_reaches_end nameClass 32 1 0 name.toList
  have hlen : name.toList.length = name.length := rfl
  simp only [hlen, inRanges_nameClass] at key
  rw [← key]
  simp only [isValidName, regex_match, nameRE, Regex.run, List.any_eq_true, if_true,
    List.flatMap_cons, List.flatMap_nil, List.append_nil, List.mem_flatMap,
    List.isEmpty_iff]
  constructor
  · rintro ⟨st, ⟨a, ha, hst⟩, hnil⟩
    by_cases h : a.2 = []
    · exact ⟨a, ha, h⟩
    · simp [h] at hst
  · rintro ⟨st, hst, hnil⟩
    exact ⟨st, ⟨st, hst, by simp [hnil]⟩, hnil⟩

/-- C2. `isValidName(name)` holds if and only if the name has between 1 and 32 characters
and each of its characters is an ASCII letter, an ASCII digit or an underscore; the match is
on the whole string, so any other character anywhere makes it false. -/
theorem isValidName_iff_length_and_chars (name : String) :
    isValidName name = true ↔
      (1 ≤ name.length ∧ name.length ≤ 32 ∧
        ∀ c ∈ name.toList, c.isAlpha = true ∨ c.isDigit = true ∨ c = '_') :=
  isValidName_spec name

/-! ## The map operations -/

namespace StdMap

theorem find_assign_self (m : StdMap) (key : String) (value : CanBus) :
    find (assign m key value) key = some value := by
  induction m with
  | nil => simp [assign, find]
  | cons e rest ih =>
    obtain ⟨k, v⟩ := e
    by_cases h1 : key < k
    · simp [assign, find, h1]
    · by_cases h2 : k = key
      · simp [assign, find, h1, h2]
      · simp [assign, find, h1, h2, ih]

theorem find_assign_ne (m : StdMap) (key other : String) (value : CanBus) (h : other ≠ key) :
    find (assign m key value) other = find m other := by
  induction m with
  | nil => simp [assign, find, Ne.symm h]
  | cons e rest ih =>
    obtain ⟨k, v⟩ := e
    by_cases h1 : key < k
    · simp [assign, find, h1, Ne.symm h]
    · by_cases h2 : k = key
      · subst h2
        simp [assign, find, h1, Ne.symm h]
      · by_cases h3 : k = other
        · subst h3
          simp [assign, find, h1, h2]
        · simp [assign, find, h1, h2, h3, ih]

theorem erase_of_find_none (m : StdMap) (key : String) (h : find m key = none) :
    erase m key = m := by
  induction m with
  | nil => rfl
  | cons e rest ih =>
    obtain ⟨k, v⟩ := e
    by_cases h1 : k = key
    · simp [find, h1] at h
    · simp only [find, h1, if_false] at h
      simp [erase, h1, ih h]

theorem erase_assign_of_find_none (m : StdMap) (key : String) (value : CanBus)
    (h : find m key = none) : erase (assign m key value) key = m := by
  induction m with
  | nil => simp [assign, erase]
  | cons e rest ih =>
    obtain ⟨k, v⟩ := e
    by_cases h2 : k = key
    · simp [find, h2] at h
    · simp only [find, h2, if_false] at h
      by_cases h1 : key < k
      · simp [assign, erase, h1, h2, erase_of_find_none rest key h]
      · simp [assign, erase, h1, h2, ih h]

theorem find_erase_self (m : StdMap) (key : String) : find (erase m key) key = none := by
  induction m with
  | nil => rfl
  | cons e rest ih =>
    obtain ⟨k, v⟩ := e
    by_cases h1 : k = key
    · simp [erase, h1, ih]
    · simp [erase, find, h1, ih]

end StdMap

/-! ## The paths through `upInterface` -/

theorem newBusService_error (config : BusConfig) (id : Nat) (r : Result)
    (h : newBusService config id = .error r) : r = .BAD_INTERFACE_ID ∨ r = .NOT_SUPPORTED := by
  unfold newBusService at h
  split at h <;> simp at h <;> simp [← h]

theorem upInterface_of_invalid (o : UpOutcome) (config : BusConfig) (w : World)
    (hname : isValidName config.name = false) :
    upInterface o config w = (.BAD_SERVICE_NAME, w) := by
  simp [upInterface, hname]

theorem upInterface_of_present (o : UpOutcome) (config : BusConfig) (w : World) (bus : CanBus)
    (hname : isValidName config.name = true)
    (hfound : StdMap.find w.mCanBuses config.name = some bus) :
    upInterface o config w = (.INVALID_STATE, w) := by
  simp [upInterface, hname, hfound]

theorem upInterface_of_rejected (o : UpOutcome) (config : BusConfig) (w : World) (r : Result)
    (hname : isValidName config.name = true)
    (habsent : StdMap.find w.mCanBuses config.name = none)
    (hnew : newBusService config w.allocated = .error r) :
    upInterface o config w = (r, w) := by
  simp [upInterface, hname, habsent, hnew]

theorem upInterface_of_up_failed (o : UpOutcome) (config : BusConfig) (w : World)
    (bus : CanBus) (hname : isValidName config.name = true)
    (habsent : StdMap.find w.mCanBuses config.name = none)
    (hnew : newBusService config w.allocated = .ok bus) (hup : o.up ≠ .OK) :
    upInterface o config w =
      (o.up, { w with
        allocated := w.allocated + 1
        log := w.log ++ [.setErrorCallback bus config.name, .up bus o.up] }) := by
  simp [upInterface, hname, habsent, hnew, hup, World.record]

theorem upInterface_of_register_failed (o : UpOutcome) (config : BusConfig) (w : World)
    (bus : CanBus) (hname : isValidName config.name = true)
    (habsent : StdMap.find w.mCanBuses config.name = none)
    (hnew : newBusService config w.allocated = .ok bus) (hup : o.up = .OK)
    (hreg : o.registerAsService = false) :
    upInterface o config w =
      (.BAD_SERVICE_NAME, { w with
        allocated := w.allocated + 1
        log := w.log ++ [.setErrorCallback bus config.name, .up bus .OK,
          .registerAsService bus config.name false, .down bus o.down] }) := by
  simp [upInterface, hname, habsent, hnew, hup, hreg, World.record, registerAsService]

theorem upInterface_of_registered (o : UpOutcome) (config : BusConfig) (w : World)
    (bus : CanBus) (hname : isValidName config.name = true)
    (habsent : StdMap.find w.mCanBuses config.name = none)
    (hnew : newBusService config w.allocated = .ok bus) (hup : o.up = .OK)
    (hreg : o.registerAsService = true) :
    upInterface o config w =
      (.OK, { mCanBuses := StdMap.assign w.mCanBuses config.name bus
              directory := StdMap.assign w.directory config.name bus
              log := w.log ++ [.setErrorCallback bus config.name, .up bus .OK,
                .registerAsService bus config.name true]
              allocated := w.allocated + 1 }) := by
  simp [upInterface, hname, habsent, hnew, hup, hreg, World.record, registerAsService]

/-- The registry is touched on no path of `upInterface` but the one that returns `OK`. -/
theorem upInterface_registry_of_not_ok (o : UpOutcome) (config : BusConfig) (w : World)
    (h : (upInterface o config w).1 ≠ .OK) :
    (upInterface o config w).2.mCanBuses = w.mCanBuses := by
  cases hname : isValidName config.name with
  | false => rw [upInterface_of_invalid o config w hname]
  | true =>
    cases hfound : StdMap.find w.mCanBuses config.name with
    | some bus => rw [upInterface_of_present o config w bus hname hfound]
    | none =>
      cases hnew : newBusService config w.allocated with
      | error r => rw [upInterface_of_rejected o config w r hname hfound hnew]
      | ok bus =>
        by_cases hup : o.up = .OK
        · cases hreg : o.registerAsService with
          | false => rw [upInterface_of_register_failed o config w bus hname hfound hnew hup hreg]
          | true =>
            rw [upInterface_of_registered o config w bus hname hfound hnew hup hreg] at h
            exact absurd rfl h
        · rw [upInterface_of_up_failed o config w bus hname hfound hnew hup]

theorem downInterface_of_absent (o : DownOutcome) (name : String) (w : World)
    (habsent : StdMap.find w.mCanBuses name = none) :
    downInterface o name w = (false, w) := by
  simp [downInterface, StdMap.extract, habsent]

theorem callsSince_append (w w2 : World) (cs : List Call) (h : w2.log = w.log ++ cs) :
    callsSince w w2 = cs := by
  simp [callsSince, h]

theorem newBusService_id (config : BusConfig) (id : Nat) (bus : CanBus)
    (h : newBusService config id = .ok bus) : bus.id = id := by
  unfold newBusService at h
  split at h <;> simp at h <;> simp [← h]

/-- Inversion of the `OK` path of `upInterface`. -/
theorem upInterface_ok_inv (o : UpOutcome) (config : BusConfig) (w : World)
    (h : (upInterface o config w).1 = .OK) :
    isValidName config.name = true ∧ StdMap.find w.mCanBuses config.name = none ∧
      (∃ bus, newBusService config w.allocated = .ok bus) ∧ o.up = .OK ∧
      o.registerAsService = true := by
  cases hname : isValidName config.name with
  | false => rw [upInterface_of_invalid o config w hname] at h; simp at h
  | true =>
    cases hfound : StdMap.find w.mCanBuses config.name with
    | some bus =>
      rw [upInterface_of_present o config w bus hname hfound] at h; simp at h
    | none =>
      cases hnew : newBusService config w.allocated with
      | error r =>
        rw [upInterface_of_rejected o config w r hname hfound hnew] at h
        rcases newBusService_error config w.allocated r hnew with hr | hr <;>
          rw [hr] at h <;> simp at h
      | ok bus =>
        by_cases hup : o.up = .OK
        · cases hreg : o.registerAsService with
          | false =>
            rw [upInterface_of_register_failed o config w bus hname hfound hnew hup hreg] at h
            simp at h
          | true => exact ⟨rfl, rfl, ⟨bus, rfl⟩, hup, rfl⟩
        · rw [upInterface_of_up_failed o config w bus hname hfound hnew hup] at h
          exact absurd h hup

theorem downInterface_of_clean (o : DownOutcome) (name : String) (w : World) (bus : CanBus)
    (hfound : StdMap.find w.mCanBuses name = some bus) (hmgr : o.getService = true)
    (hunreg : o.tryUnregister = some true) (hdown : o.down = true) :
    downInterface o name w =
      (true, { mCanBuses := StdMap.erase w.mCanBuses name
               directory := StdMap.erase w.directory name
               log := w.log ++ [.getService true, .tryUnregister name bus (some true),
                 .down bus true]
               allocated := w.allocated }) := by
  simp [downInterface, StdMap.extract, hfound, unregisterCanBusService, tryUnregister, hmgr,
    hunreg, hdown, World.record]

/-! ## Properties of bring-up and bring-down -/

/-- C1. For a bus name that is empty, longer than 32 characters or contains a character
outside `[a-zA-Z0-9_]`, in every state and for every configuration and collaborator
behaviour, `upInterface` returns `BAD_SERVICE_NAME` and leaves both the registry
`mCanBuses` and the discovery directory unchanged. -/
theorem upInterface_invalid_name (o : UpOutcome) (config : BusConfig) (w : World)
    (h : config.name.length = 0 ∨ 32 < config.name.length ∨
      ∃ c ∈ config.name.toList, ¬ (c.isAlpha = true ∨ c.isDigit = true ∨ c = '_')) :
    (upInterface o config w).1 = .BAD_SERVICE_NAME ∧
      (upInterface o config w).2.mCanBuses = w.mCanBuses ∧
      (upInterface o config w).2.directory = w.directory := by
  have hname : isValidName config.name = false := by
    rw [Bool.eq_false_iff]
    intro hv
    obtain ⟨h1, h2, h3⟩ := (isValidName_spec config.name).mp hv
    rcases h with h | h | ⟨c, hc, hbad⟩
    · omega
    · omega
    · exact hbad (h3 c hc)
  rw [upInterface_of_invalid o config w hname]
  exact ⟨rfl, rfl, rfl⟩

theorem upInterface_invalid_name_witness :
    (unnamed57.name.length = 0 ∨ 32 < unnamed57.name.length ∨
      ∃ c ∈ unnamed57.name.toList, ¬ (c.isAlpha = true ∨ c.isDigit = true ∨ c = '_')) ∧
    ((upInterface allUp unnamed57 dummyIsUp).1 = .BAD_SERVICE_NAME ∧
      (upInterface allUp unnamed57 dummyIsUp).2.mCanBuses = dummyIsUp.mCanBuses ∧
      (upInterface allUp unnamed57 dummyIsUp).2.directory = dummyIsUp.directory) :=
  ⟨Or.inl rfl, upInterface_invalid_name allUp unnamed57 dummyIsUp (Or.inl rfl)⟩

/-- C3. For a valid name absent from the registry and a configuration for which the dispatch
constructs a bus object `bus`, when activation and directory registration succeed,
`upInterface` returns `OK`; a second `upInterface` with the same name, with any configuration
and any collaborator behaviour, returns `INVALID_STATE`, the registry still maps the name to
`bus`, and the directory still resolves the name to `bus`. -/
theorem upInterface_twice (o o2 : UpOutcome) (config config2 : BusConfig) (w : World)
    (bus : CanBus) (hname : isValidName config.name = true)
    (habsent : StdMap.find w.mCanBuses config.name = none)
    (hnew : newBusService config w.allocated = .ok bus)
    (hup : o.up = .OK) (hreg : o.registerAsService = true)
    (hsame : config2.name = config.name) :
    (upInterface o config w).1 = .OK ∧
      (upInterface o2 config2 (upInterface o config w).2).1 = .INVALID_STATE ∧
      StdMap.find (upInterface o2 config2 (upInterface o config w).2).2.mCanBuses config.name
        = some bus ∧
      StdMap.find (upInterface o2 config2 (upInterface o config w).2).2.directory config.name
        = some bus := by
  have hfirst := upInterface_of_registered o config w bus hname habsent hnew hup hreg
  have hsecond := upInterface_of_present o2 config2
    { mCanBuses := StdMap.assign w.mCanBuses config.name bus
      directory := StdMap.assign w.directory config.name bus
      log := w.log ++ [.setErrorCallback bus config.name, .up bus .OK,
        .registerAsService bus config.name true]
      allocated := w.allocated + 1 } bus (by rw [hsame]; exact hname)
    (by rw [hsame]; exact StdMap.find_assign_self _ _ _)
  simp [hfirst, hsecond, StdMap.find_assign_self]

theorem upInterface_twice_witness :
    (isValidName dummy57.name = true ∧
      StdMap.find World.initial.mCanBuses dummy57.name = none ∧
      newBusService dummy57 World.initial.allocated = .ok bus57 ∧
      allUp.up = .OK ∧ allUp.registerAsService = true ∧ dummy73.name = dummy57.name) ∧
    ((upInterface allUp dummy57 World.initial).1 = .OK ∧
      (upInterface allUp dummy73 (upInterface allUp dummy57 World.initial).2).1
        = .INVALID_STATE ∧
      StdMap.find
        (upInterface allUp dummy73 (upInterface allUp dummy57 World.initial).2).2.mCanBuses
        dummy57.name = some bus57 ∧
      StdMap.find
        (upInterface allUp dummy73 (upInterface allUp dummy57 World.initial).2).2.directory
        dummy57.name = some bus57) :=
  ⟨⟨by decide, by decide, rfl, by decide, by decide, by decide⟩,
    upInterface_twice allUp allUp dummy57 dummy73 World.initial bus57
      (by decide) (by decide) rfl (by decide) (by decide) (by decide)⟩

/-- C4. For a name that is not a key of the registry, `downInterface` returns `false`,
leaves the registry and the discovery directory unchanged and makes no collaborator call:
neither an unregistration nor a `down()` on any bus object. -/
theorem downInterface_not_up (o : DownOutcome) (name : String) (w : World)
    (habsent : StdMap.find w.mCanBuses name = none) :
    (downInterface o name w).1 = false ∧
      (downInterface o name w).2.mCanBuses = w.mCanBuses ∧
      (downInterface o name w).2.directory = w.directory ∧
      callsSince w (downInterface o name w).2 = [] := by
  rw [downInterface_of_absent o name w habsent]
  exact ⟨rfl, rfl, rfl, by simp [callsSince]⟩

theorem downInterface_not_up_witness :
    StdMap.find dummyIsUp.mCanBuses "imnotup" = none ∧
    ((downInterface allDown "imnotup" dummyIsUp).1 = false ∧
      (downInterface allDown "imnotup" dummyIsUp).2.mCanBuses = dummyIsUp.mCanBuses ∧
      (downInterface allDown "imnotup" dummyIsUp).2.directory = dummyIsUp.directory ∧
      callsSince dummyIsUp (downInterface allDown "imnotup" dummyIsUp).2 = []) :=
  ⟨by decide, downInterface_not_up allDown "imnotup" dummyIsUp (by decide)⟩

/-- C5. Round trip: for a valid name absent from the registry, a configuration for which
the dispatch constructs a bus object, and activation, registration, unregistration and
deactivation that all succeed, `upInterface` returns `OK`, the following `downInterface` of
the name returns `true`, and afterwards the directory does not resolve the name and the
registry equals the registry before the `upInterface` call (whatever the directory held
before). -/
theorem upInterface_downInterface_round_trip (o : UpOutcome) (d : DownOutcome)
    (config : BusConfig) (w : World) (bus : CanBus)
    (hname : isValidName config.name = true)
    (habsent : StdMap.find w.mCanBuses config.name = none)
    (hnew : newBusService config w.allocated = .ok bus)
    (hup : o.up = .OK) (hreg : o.registerAsService = true)
    (hmgr : d.getService = true) (hunreg : d.tryUnregister = some true)
    (hdown : d.down = true) :
    (upInterface o config w).1 = .OK ∧
      (downInterface d config.name (upInterface o config w).2).1 = true ∧
      StdMap.find (downInterface d config.name (upInterface o config w).2).2.directory
        config.name = none ∧
      (downInterface d config.name (upInterface o config w).2).2.mCanBuses = w.mCanBuses := by
  have hfirst := upInterface_of_registered o config w bus hname habsent hnew hup hreg
  have hsecond := downInterface_of_clean d config.name
    { mCanBuses := StdMap.assign w.mCanBuses config.name bus
      directory := StdMap.assign w.directory config.name bus
      log := w.log ++ [.setErrorCallback bus config.name, .up bus .OK,
        .registerAsService bus config.name true]
      allocated := w.allocated + 1 } bus (StdMap.find_assign_self _ _ _) hmgr hunreg hdown
  simp [hfirst, hsecond, StdMap.find_erase_self,
    StdMap.erase_assign_of_find_none w.mCanBuses config.name bus habsent]

theorem upInterface_downInterface_round_trip_witness :
    (isValidName dummy57.name = true ∧
      StdMap.find World.initial.mCanBuses dummy57.name = none ∧
      newBusService dummy57 World.initial.allocated = .ok bus57 ∧
      allUp.up = .OK ∧ allUp.registerAsService = true ∧
      allDown.getService = true ∧ allDown.tryUnregister = some true ∧ allDown.down = true) ∧
    ((upInterface allUp dummy57 World.initial).1 = .OK ∧
      (downInterface allDown dummy57.name (upInterface allUp dummy57 World.initial).2).1
        = true ∧
      StdMap.find
        (downInterface allDown dummy57.name
          (upInterface allUp dummy57 World.initial).2).2.directory dummy57.name = none ∧
      (downInterface allDown dummy57.name
        (upInterface allUp dummy57 World.initial).2).2.mCanBuses
        = World.initial.mCanBuses) :=
  ⟨⟨by decide, by decide, rfl, by decide, by decide, by decide, by decide, by decide⟩,
    upInterface_downInterface_round_trip allUp allDown dummy57 World.initial bus57
      (by decide) (by decide) rfl (by decide) (by decide) (by decide) (by decide)
      (by decide)⟩

/-- C6. For an `upInterface` call that passes validation (valid name, absent from the
registry, a configuration for which the dispatch constructs `bus`) and whose activation
succeeds but whose directory registration fails: the result is `BAD_SERVICE_NAME`; the calls
made are the error-callback installation, `up()`, the failed registration and then `down()`
on `bus`, so that `down()` is invoked exactly once; the registry does not contain the name
afterwards; and the result and the final registry are the same whether that `down()`
succeeds or fails. -/
theorem upInterface_registration_failure_rolls_back (o : UpOutcome) (config : BusConfig)
    (w : World) (bus : CanBus) (hname : isValidName config.name = true)
    (habsent : StdMap.find w.mCanBuses config.name = none)
    (hnew : newBusService config w.allocated = .ok bus)
    (hup : o.up = .OK) (hreg : o.registerAsService = false) :
    (upInterface o config w).1 = .BAD_SERVICE_NAME ∧
      callsSince w (upInterface o config w).2 =
        [.setErrorCallback bus config.name, .up bus .OK,
          .registerAsService bus config.name false, .down bus o.down] ∧
      (callsSince w (upInterface o config w).2).countP Call.isDown = 1 ∧
      StdMap.find (upInterface o config w).2.mCanBuses config.name = none ∧
      (upInterface { o with down := true } config w).1 =
        (upInterface { o with down := false } config w).1 ∧
      (upInterface { o with down := true } config w).2.mCanBuses =
        (upInterface { o with down := false } config w).2.mCanBuses := by
  have h := upInterface_of_register_failed o config w bus hname habsent hnew hup hreg
  have ht := upInterface_of_register_failed { o with down := true } config w bus hname habsent
    hnew hup hreg
  have hf := upInterface_of_register_failed { o with down := false } config w bus hname
    habsent hnew hup hreg
  have hcalls : callsSince w (upInterface o config w).2 =
      [.setErrorCallback bus config.name, .up bus .OK,
        .registerAsService bus config.name false, .down bus o.down] :=
    callsSince_append w _ _ (by rw [h])
  refine ⟨by rw [h], hcalls, ?_, by rw [h]; exact habsent, by rw [ht, hf], by rw [ht, hf]⟩
  rw [hcalls]
  rfl

theorem upInterface_registration_failure_rolls_back_witness :
    (isValidName dummy57.name = true ∧
      StdMap.find World.initial.mCanBuses dummy57.name = none ∧
      newBusService dummy57 World.initial.allocated = .ok bus57 ∧
      (⟨.OK, false, false⟩ : UpOutcome).up = .OK ∧
      (⟨.OK, false, false⟩ : UpOutcome).registerAsService = false) ∧
    ((upInterface ⟨.OK, false, false⟩ dummy57 World.initial).1 = .BAD_SERVICE_NAME ∧
      callsSince World.initial (upInterface ⟨.OK, false, false⟩ dummy57 World.initial).2 =
        [.setErrorCallback bus57 dummy57.name, .up bus57 .OK,
          .registerAsService bus57 dummy57.name false, .down bus57 false] ∧
      (callsSince World.initial
        (upInterface ⟨.OK, false, false⟩ dummy57 World.initial).2).countP Call.isDown = 1 ∧
      StdMap.find (upInterface ⟨.OK, false, false⟩ dummy57 World.initial).2.mCanBuses
        dummy57.name = none ∧
      (upInterface ⟨.OK, false, true⟩ dummy57 World.initial).1 =
        (upInterface ⟨.OK, false, false⟩ dummy57 World.initial).1 ∧
      (upInterface ⟨.OK, false, true⟩ dummy57 World.initial).2.mCanBuses =
        (upInterface ⟨.OK, false, false⟩ dummy57 World.initial).2.mCanBuses) :=
  ⟨⟨by decide, by decide, rfl, by decide, by decide⟩,
    upInterface_registration_failure_rolls_back ⟨.OK, false, false⟩ dummy57 World.initial
      bus57 (by decide) (by decide) rfl (by decide) (by decide)⟩

/-- C7. Atomicity of bring-up: in every state and for every configuration and collaborator
behaviour, if `upInterface` returns a result other than `OK` then the registry after the
call equals the registry before the call. -/
theorem upInterface_atomic (o : UpOutcome) (config : BusConfig) (w : World)
    (h : (upInterface o config w).1 ≠ .OK) :
    (upInterface o config w).2.mCanBuses = w.mCanBuses :=
  upInterface_registry_of_not_ok o config w h

theorem upInterface_atomic_witness :
    (upInterface ⟨.OK, false, false⟩ dummy57 World.initial).1 ≠ .OK ∧
    (upInterface ⟨.OK, false, false⟩ dummy57 World.initial).2.mCanBuses
      = World.initial.mCanBuses :=
  ⟨by decide, upInterface_atomic ⟨.OK, false, false⟩ dummy57 World.initial (by decide)⟩

/-- C8. For an `upInterface` call that passes validation (valid name, absent from the
registry, a configuration for which the dispatch constructs `bus`) and whose activation
`up()` reports a result other than `OK`: `upInterface` returns exactly that result; the only
calls made are the error-callback installation and `up()`, so that no directory registration
is attempted; the registry and the directory are left as they were, and the name is not in
the registry. -/
theorem upInterface_returns_activation_error (o : UpOutcome) (config : BusConfig) (w : World)
    (bus : CanBus) (hname : isValidName config.name = true)
    (habsent : StdMap.find w.mCanBuses config.name = none)
    (hnew : newBusService config w.allocated = .ok bus) (hup : o.up ≠ .OK) :
    (upInterface o config w).1 = o.up ∧
      callsSince w (upInterface o config w).2 =
        [.setErrorCallback bus config.name, .up bus o.up] ∧
      (callsSince w (upInterface o config w).2).any Call.isRegistration = false ∧
      (upInterface o config w).2.mCanBuses = w.mCanBuses ∧
      (upInterface o config w).2.directory = w.directory ∧
      StdMap.find (upInterface o config w).2.mCanBuses config.name = none := by
  have h := upInterface_of_up_failed o config w bus hname habsent hnew hup
  have hcalls : callsSince w (upInterface o config w).2 =
      [.setErrorCallback bus config.name, .up bus o.up] :=
    callsSince_append w _ _ (by rw [h])
  refine ⟨by rw [h], hcalls, ?_, by rw [h], by rw [h], by rw [h]; exact habsent⟩
  rw [hcalls]
  rfl

theorem upInterface_returns_activation_error_witness :
    (isValidName dummy57.name = true ∧
      StdMap.find World.initial.mCanBuses dummy57.name = none ∧
      newBusService dummy57 World.initial.allocated = .ok bus57 ∧
      (⟨.BAD_INTERFACE_ID, true, true⟩ : UpOutcome).up ≠ .OK) ∧
    ((upInterface ⟨.BAD_INTERFACE_ID, true, true⟩ dummy57 World.initial).1
        = (⟨.BAD_INTERFACE_ID, true, true⟩ : UpOutcome).up ∧
      callsSince World.initial
          (upInterface ⟨.BAD_INTERFACE_ID, true, true⟩ dummy57 World.initial).2 =
        [.setErrorCallback bus57 dummy57.name,
          .up bus57 (⟨.BAD_INTERFACE_ID, true, true⟩ : UpOutcome).up] ∧
      (callsSince World.initial
          (upInterface ⟨.BAD_INTERFACE_ID, true, true⟩ dummy57 World.initial).2).any
        Call.isRegistration = false ∧
      (upInterface ⟨.BAD_INTERFACE_ID, true, true⟩ dummy57 World.initial).2.mCanBuses
        = World.initial.mCanBuses ∧
      (upInterface ⟨.BAD_INTERFACE_ID, true, true⟩ dummy57 World.initial).2.directory
        = World.initial.directory ∧
      StdMap.find
        (upInterface ⟨.BAD_INTERFACE_ID, true, true⟩ dummy57 World.initial).2.mCanBuses
        dummy57.name = none) :=
  ⟨⟨by decide, by decide, rfl, by decide⟩,
    upInterface_returns_activation_error ⟨.BAD_INTERFACE_ID, true, true⟩ dummy57
      World.initial bus57 (by decide) (by decide) rfl (by decide)⟩

/-- C9. Whenever `upInterface` returns `OK`, the dispatch has constructed a new bus object
`bus` (its identity is the next unused one), afterwards the registry maps the
configuration's name to `bus` and the directory resolves the name to `bus`, and the calls
made are the error-callback installation, an `up()` that returned `OK` and a registration
that succeeded: `down()` has not been called on `bus`. -/
theorem upInterface_ok_postcondition (o : UpOutcome) (config : BusConfig) (w : World)
    (h : (upInterface o config w).1 = .OK) :
    ∃ bus, newBusService config w.allocated = .ok bus ∧ bus.id = w.allocated ∧
      StdMap.find (upInterface o config w).2.mCanBuses config.name = some bus ∧
      StdMap.find (upInterface o config w).2.directory config.name = some bus ∧
      callsSince w (upInterface o config w).2 =
        [.setErrorCallback bus config.name, .up bus .OK,
          .registerAsService bus config.name true] ∧
      (callsSince w (upInterface o config w).2).any Call.isDown = false := by
  obtain ⟨hname, habsent, ⟨bus, hnew⟩, hup, hreg⟩ := upInterface_ok_inv o config w h
  have hok := upInterface_of_registered o config w bus hname habsent hnew hup hreg
  have hcalls : callsSince w (upInterface o config w).2 =
      [.setErrorCallback bus config.name, .up bus .OK,
        .registerAsService bus config.name true] :=
    callsSince_append w _ _ (by rw [hok])
  refine ⟨bus, hnew, newBusService_id config w.allocated bus hnew, ?_, ?_, hcalls, ?_⟩
  · rw [hok]; exact StdMap.find_assign_self _ _ _
  · rw [hok]; exact StdMap.find_assign_self _ _ _
  · rw [hcalls]; rfl

theorem upInterface_ok_postcondition_witness :
    (upInterface allUp dummy57 World.initial).1 = .OK ∧
    ∃ bus, newBusService dummy57 World.initial.allocated = .ok bus ∧
      bus.id = World.initial.allocated ∧
      StdMap.find (upInterface allUp dummy57 World.initial).2.mCanBuses dummy57.name
        = some bus ∧
      StdMap.find (upInterface allUp dummy57 World.initial).2.directory dummy57.name
        = some bus ∧
      callsSince World.initial (upInterface allUp dummy57 World.initial).2 =
        [.setErrorCallback bus dummy57.name, .up bus .OK,
          .registerAsService bus dummy57.name true] ∧
      (callsSince World.initial (upInterface allUp dummy57 World.initial).2).any
        Call.isDown = false :=
  ⟨by decide, upInterface_ok_postcondition allUp dummy57 World.initial (by decide)⟩

/-- C10. Validation order of `upInterface`: an invalid name yields `BAD_SERVICE_NAME`
whatever the registry and the configuration are; a valid name that is already in the
registry yields `INVALID_STATE` whatever the configuration is; and a result `r` with which
the dispatch rejects the configuration (`BAD_INTERFACE_ID` or `NOT_SUPPORTED`) is the result
of `upInterface` exactly when the name is valid and absent from the registry. -/
theorem upInterface_validation_order (o : UpOutcome) (config : BusConfig) (w : World) :
    (isValidName config.name = false → (upInterface o config w).1 = .BAD_SERVICE_NAME) ∧
      (isValidName config.name = true →
        (StdMap.find w.mCanBuses config.name).isSome = true →
        (upInterface o config w).1 = .INVALID_STATE) ∧
      (∀ r, newBusService config w.allocated = .error r →
        ((r = .BAD_INTERFACE_ID ∨ r = .NOT_SUPPORTED) ∧
          ((upInterface o config w).1 = r ↔
            (isValidName config.name = true ∧
              StdMap.find w.mCanBuses config.name = none)))) := by
  refine ⟨?_, ?_, ?_⟩
  · intro hname
    rw [upInterface_of_invalid o config w hname]
  · intro hname hsome
    obtain ⟨bus, hfound⟩ := Option.isSome_iff_exists.mp hsome
    rw [upInterface_of_present o config w bus hname hfound]
  · intro r hnew
    have hr := newBusService_error config w.allocated r hnew
    refine ⟨hr, ?_⟩
    cases hname : isValidName config.name with
    | false =>
      rw [upInterface_of_invalid o config w hname]
      rcases hr with hr | hr <;> simp [hr]
    | true =>
      cases hfound : StdMap.find w.mCanBuses config.name with
      | some bus =>
        rw [upInterface_of_present o config w bus hname hfound]
        rcases hr with hr | hr <;> simp [hr]
      | none =>
        rw [upInterface_of_rejected o config w r hname hfound hnew]
        simp

theorem upInterface_validation_order_witness :
    (upInterface allUp ⟨"", .indexed 0, 0⟩ dummyIsUp).1 = .BAD_SERVICE_NAME ∧
    (upInterface allUp ⟨"dummy", .indexed 0, 0⟩ dummyIsUp).1 = .INVALID_STATE ∧
    ((upInterface allUp ⟨"other", .indexed 0, 0⟩ dummyIsUp).1 = .NOT_SUPPORTED ↔
      (isValidName "other" = true ∧ StdMap.find dummyIsUp.mCanBuses "other" = none)) :=
  ⟨(upInterface_validation_order allUp ⟨"", .indexed 0, 0⟩ dummyIsUp).1 (by decide),
    (upInterface_validation_order allUp ⟨"dummy", .indexed 0, 0⟩ dummyIsUp).2.1
      (by decide) (by decide),
    ((upInterface_validation_order allUp ⟨"other", .indexed 0, 0⟩ dummyIsUp).2.2
      .NOT_SUPPORTED rfl).2⟩

/-! ## Properties of the dispatch on the interface identifier -/

theorem isValidName_false_of_length (name : String)
    (h : name.length = 0 ∨ 32 < name.length) : isValidName name = false := by
  rw [Bool.eq_false_iff]
  intro hv
  obtain ⟨h1, h2, _⟩ := (isValidName_spec name).mp hv
  omega

/-- The dispatch answers `NOT_SUPPORTED` for the identifiers of an interface type outside the
supported list, and for no other. -/
theorem newBusService_not_supported_iff (config : BusConfig) (n : Nat) (w : World) :
    newBusService config n = .error .NOT_SUPPORTED ↔
      config.interfaceId.kind ∉ (getSupportedInterfaceTypes id w).1 := by
  unfold newBusService
  cases hid : config.interfaceId with
  | virtualif n => simp [InterfaceId.kind, getSupportedInterfaceTypes]
  | socketcan sc => cases sc <;> simp [InterfaceId.kind, getSupportedInterfaceTypes]
  | slcan sl => cases sl <;> simp [InterfaceId.kind, getSupportedInterfaceTypes]
  | indexed i => simp [InterfaceId.kind, getSupportedInterfaceTypes]

/-- C11. For a valid name absent from the registry, a socketcan configuration whose
addressing is not an interface name, or an slcan configuration whose addressing is not a tty
name, makes `upInterface` return `BAD_INTERFACE_ID` with the registry unchanged. -/
theorem upInterface_unhandled_addressing (o : UpOutcome) (config : BusConfig) (w : World)
    (hname : isValidName config.name = true)
    (habsent : StdMap.find w.mCanBuses config.name = none)
    (haddr : (∃ sc, config.interfaceId = .socketcan sc ∧ ∀ ifname, sc ≠ .ifname ifname) ∨
      (∃ sl, config.interfaceId = .slcan sl ∧ ∀ ttyname, sl ≠ .ttyname ttyname)) :
    (upInterface o config w).1 = .BAD_INTERFACE_ID ∧
      (upInterface o config w).2.mCanBuses = w.mCanBuses := by
  have hnew : newBusService config w.allocated = .error .BAD_INTERFACE_ID := by
    unfold newBusService
    rcases haddr with ⟨sc, hid, hsc⟩ | ⟨sl, hid, hsl⟩
    · rw [hid]
      cases sc with
      | ifname n => exact absurd rfl (hsc n)
      | serialno l => rfl
    · rw [hid]
      cases sl with
      | ttyname n => exact absurd rfl (hsl n)
      | serialno l => rfl
  rw [upInterface_of_rejected o config w _ hname habsent hnew]
  exact ⟨rfl, rfl⟩

theorem upInterface_unhandled_addressing_witness :
    (isValidName compatSocketcanSerial.name = true ∧
      StdMap.find dummyIsUp.mCanBuses compatSocketcanSerial.name = none ∧
      ((∃ sc, compatSocketcanSerial.interfaceId = .socketcan sc ∧
          ∀ ifname, sc ≠ .ifname ifname) ∨
        (∃ sl, compatSocketcanSerial.interfaceId = .slcan sl ∧
          ∀ ttyname, sl ≠ .ttyname ttyname))) ∧
    ((upInterface allUp compatSocketcanSerial dummyIsUp).1 = .BAD_INTERFACE_ID ∧
      (upInterface allUp compatSocketcanSerial dummyIsUp).2.mCanBuses
        = dummyIsUp.mCanBuses) :=
  ⟨⟨by decide, by decide,
      Or.inl ⟨.serialno ["dummy", "dummier"], rfl, fun _ h => Socketcan.noConfusion h⟩⟩,
    upInterface_unhandled_addressing allUp compatSocketcanSerial dummyIsUp (by decide)
      (by decide)
      (Or.inl ⟨.serialno ["dummy", "dummier"], rfl, fun _ h => Socketcan.noConfusion h⟩)⟩

/-- C12. For a valid name absent from the registry, a configuration whose transport kind is
not in the list that `getSupportedInterfaceTypes` returns makes `upInterface` return
`NOT_SUPPORTED` with the registry unchanged. -/
theorem upInterface_unsupported_kind (o : UpOutcome) (config : BusConfig) (w : World)
    (hname : isValidName config.name = true)
    (habsent : StdMap.find w.mCanBuses config.name = none)
    (hkind : config.interfaceId.kind ∉ (getSupportedInterfaceTypes id w).1) :
    (upInterface o config w).1 = .NOT_SUPPORTED ∧
      (upInterface o config w).2.mCanBuses = w.mCanBuses := by
  have hnew := (newBusService_not_supported_iff config w.allocated w).mpr hkind
  rw [upInterface_of_rejected o config w _ hname habsent hnew]
  exact ⟨rfl, rfl⟩

theorem upInterface_unsupported_kind_witness :
    (isValidName compatIndexed.name = true ∧
      StdMap.find dummyIsUp.mCanBuses compatIndexed.name = none ∧
      compatIndexed.interfaceId.kind ∉ (getSupportedInterfaceTypes id dummyIsUp).1) ∧
    ((upInterface allUp compatIndexed dummyIsUp).1 = .NOT_SUPPORTED ∧
      (upInterface allUp compatIndexed dummyIsUp).2.mCanBuses = dummyIsUp.mCanBuses) :=
  ⟨⟨by decide, by decide, by decide⟩,
    upInterface_unsupported_kind allUp compatIndexed dummyIsUp (by decide) (by decide)
      (by decide)⟩

/-- C13, as stated, fails: for the virtual bus `dummy57`, whose kind is in the supported
list, an activation `up()` that reports `NOT_SUPPORTED` makes `upInterface` return
`NOT_SUPPORTED`. -/
theorem upInterface_supported_kind_not_supported_counterexample :
    dummy57.interfaceId.kind ∈ (getSupportedInterfaceTypes id World.initial).1 ∧
      (upInterface ⟨.NOT_SUPPORTED, true, true⟩ dummy57 World.initial).1 = .NOT_SUPPORTED := by
  decide

/-- C13, amended. For a configuration whose transport kind is in the list that
`getSupportedInterfaceTypes` returns, with any addressing variant, in any state, `upInterface`
does not return `NOT_SUPPORTED` unless the activation `up()` of the bus object itself reports
`NOT_SUPPORTED`. -/
theorem upInterface_supported_kind (o : UpOutcome) (config : BusConfig) (w : World)
    (hkind : config.interfaceId.kind ∈ (getSupportedInterfaceTypes id w).1)
    (hup : o.up ≠ .NOT_SUPPORTED) :
    (upInterface o config w).1 ≠ .NOT_SUPPORTED := by
  have hdispatch : newBusService config w.allocated ≠ .error .NOT_SUPPORTED := fun h =>
    (newBusService_not_supported_iff config w.allocated w).mp h hkind
  cases hname : isValidName config.name with
  | false => rw [upInterface_of_invalid o config w hname]; simp
  | true =>
    cases hfound : StdMap.find w.mCanBuses config.name with
    | some bus => rw [upInterface_of_present o config w bus hname hfound]; simp
    | none =>
      cases hnew : newBusService config w.allocated with
      | error r =>
        rw [upInterface_of_rejected o config w r hname hfound hnew]
        intro hr
        exact hdispatch (by rw [hnew]; exact congrArg _ hr)
      | ok bus =>
        by_cases hok : o.up = .OK
        · cases hreg : o.registerAsService with
          | false =>
            rw [upInterface_of_register_failed o config w bus hname hfound hnew hok hreg]
            simp
          | true =>
            rw [upInterface_of_registered o config w bus hname hfound hnew hok hreg]
            simp
        · rw [upInterface_of_up_failed o config w bus hname hfound hnew hok]
          exact hup

theorem upInterface_supported_kind_witness :
    (compatSocketcanSerial.interfaceId.kind ∈ (getSupportedInterfaceTypes id dummyIsUp).1 ∧
      allUp.up ≠ .NOT_SUPPORTED) ∧
    (upInterface allUp compatSocketcanSerial dummyIsUp).1 ≠ .NOT_SUPPORTED :=
  ⟨⟨by decide, by decide⟩,
    upInterface_supported_kind allUp compatSocketcanSerial dummyIsUp (by decide) (by decide)⟩

/-- C15, as stated, fails: for the virtual bus with the empty name, and for the one with the
33-character name, `upInterface` answers `BAD_SERVICE_NAME`, which is not `UNKNOWN_ERROR`. -/
theorem upInterface_unknown_error_counterexample :
    unnamed57.interfaceId = .virtualif "vcan57" ∧ unnamed57.name.length = 0 ∧
      (upInterface allUp unnamed57 World.initial).1 = .BAD_SERVICE_NAME ∧
      (upInterface allUp unnamed57 World.initial).1 ≠ .UNKNOWN_ERROR ∧
      longName57.interfaceId = .virtualif "vcan57" ∧ longName57.name.length = 33 ∧
      (upInterface allUp longName57 World.initial).1 = .BAD_SERVICE_NAME ∧
      (upInterface allUp longName57 World.initial).1 ≠ .UNKNOWN_ERROR := by
  decide

/-- C15, amended. For a virtual-interface configuration whose name is empty or 33 characters
long, `upInterface` returns `BAD_SERVICE_NAME`. -/
theorem upInterface_virtual_bad_name (o : UpOutcome) (config : BusConfig) (w : World)
    (_hvirtual : ∃ ifname, config.interfaceId = .virtualif ifname)
    (hlen : config.name.length = 0 ∨ config.name.length = 33) :
    (upInterface o config w).1 = .BAD_SERVICE_NAME := by
  have hname : isValidName config.name = false :=
    isValidName_false_of_length config.name (by omega)
  rw [upInterface_of_invalid o config w hname]

theorem upInterface_virtual_bad_name_witness :
    ((∃ ifname, longName57.interfaceId = .virtualif ifname) ∧
      (longName57.name.length = 0 ∨ longName57.name.length = 33)) ∧
    (upInterface allUp longName57 dummyIsUp).1 = .BAD_SERVICE_NAME :=
  ⟨⟨⟨"vcan57", rfl⟩, Or.inr (by decide)⟩,
    upInterface_virtual_bad_name allUp longName57 dummyIsUp ⟨"vcan57", rfl⟩
      (Or.inr (by decide))⟩

/-- C16. In every state `getSupportedInterfaceTypes` passes to its callback the same
constant list `[VIRTUAL, SOCKETCAN, SLCAN]`, which is not empty, and it leaves the state,
the registry with it, as it was. -/
theorem getSupportedInterfaceTypes_constant {α : Type} (hidl_cb : List InterfaceType → α)
    (w w2 : World) :
    (getSupportedInterfaceTypes hidl_cb w).1 = hidl_cb [.VIRTUAL, .SOCKETCAN, .SLCAN] ∧
      (getSupportedInterfaceTypes id w).1 = (getSupportedInterfaceTypes id w2).1 ∧
      (getSupportedInterfaceTypes id w).1 ≠ [] ∧
      (getSupportedInterfaceTypes hidl_cb w).2 = w ∧
      (getSupportedInterfaceTypes hidl_cb w).2.mCanBuses = w.mCanBuses := by
  refine ⟨rfl, rfl, ?_, rfl, rfl⟩
  simp [getSupportedInterfaceTypes]

/-! ## Properties of bring-down -/

/-- The path of `downInterface` for a name that is in the registry. -/
theorem downInterface_of_present (o : DownOutcome) (name : String) (w : World) (bus : CanBus)
    (hfound : StdMap.find w.mCanBuses name = some bus) :
    downInterface o name w =
      (o.getService && (o.tryUnregister == some true) && o.down,
        { mCanBuses := StdMap.erase w.mCanBuses name
          directory :=
            if o.getService = true ∧ o.tryUnregister = some true then
              StdMap.erase w.directory name
            else w.directory
          log := w.log ++ (.getService o.getService ::
            ((if o.getService = true then [.tryUnregister name bus o.tryUnregister] else []) ++
              [.down bus o.down]))
          allocated := w.allocated }) := by
  obtain ⟨g, t, d⟩ := o
  cases g <;> cases d <;> rcases t with _ | _ | _ <;>
    simp [downInterface, StdMap.extract, hfound, unregisterCanBusService, tryUnregister,
      World.record]

theorem downInterface_calls (o : DownOutcome) (name : String) (w : World) (bus : CanBus)
    (hfound : StdMap.find w.mCanBuses name = some bus) :
    callsSince w (downInterface o name w).2 =
      .getService o.getService ::
        ((if o.getService = true then [.tryUnregister name bus o.tryUnregister] else []) ++
          [.down bus o.down]) :=
  callsSince_append w _ _ (by rw [downInterface_of_present o name w bus hfound])

/-- C17. For a name that the registry maps to `bus`, `downInterface` makes these calls, in
this order and whatever their outcomes: `getService()`, with which the unregistration starts;
`tryUnregister` for the name and `bus` when a manager was obtained; and `down()` on `bus`.
The unregistration is attempted exactly once, `tryUnregister` is sent at most once, and
`down()` is called exactly once, as the last call, also when the unregistration failed. -/
theorem downInterface_attempts_both (o : DownOutcome) (name : String) (w : World)
    (bus : CanBus) (hfound : StdMap.find w.mCanBuses name = some bus) :
    callsSince w (downInterface o name w).2 =
        .getService o.getService ::
          ((if o.getService = true then [.tryUnregister name bus o.tryUnregister] else []) ++
            [.down bus o.down]) ∧
      (callsSince w (downInterface o name w).2).countP Call.isGetService = 1 ∧
      (callsSince w (downInterface o name w).2).countP Call.isTryUnregister
        = (if o.getService = true then 1 else 0) ∧
      (callsSince w (downInterface o name w).2).countP Call.isDown = 1 ∧
      (callsSince w (downInterface o name w).2).getLast? = some (.down bus o.down) := by
  rw [downInterface_calls o name w bus hfound]
  cases o.getService <;> simp [Call.isGetService, Call.isTryUnregister, Call.isDown]

theorem downInterface_attempts_both_witness :
    StdMap.find dummyIsUp.mCanBuses "dummy" = some bus57 ∧
    (callsSince dummyIsUp (downInterface ⟨true, some false, false⟩ "dummy" dummyIsUp).2 =
        .getService true ::
          ((if (⟨true, some false, false⟩ : DownOutcome).getService = true then
              [.tryUnregister "dummy" bus57
                (⟨true, some false, false⟩ : DownOutcome).tryUnregister]
            else []) ++
            [.down bus57 (⟨true, some false, false⟩ : DownOutcome).down]) ∧
      (callsSince dummyIsUp
        (downInterface ⟨true, some false, false⟩ "dummy" dummyIsUp).2).countP
          Call.isGetService = 1 ∧
      (callsSince dummyIsUp
        (downInterface ⟨true, some false, false⟩ "dummy" dummyIsUp).2).countP
          Call.isTryUnregister
        = (if (⟨true, some false, false⟩ : DownOutcome).getService = true then 1 else 0) ∧
      (callsSince dummyIsUp
        (downInterface ⟨true, some false, false⟩ "dummy" dummyIsUp).2).countP
          Call.isDown = 1 ∧
      (callsSince dummyIsUp
        (downInterface ⟨true, some false, false⟩ "dummy" dummyIsUp).2).getLast?
        = some (.down bus57 (⟨true, some false, false⟩ : DownOutcome).down)) :=
  ⟨by decide,
    downInterface_attempts_both ⟨true, some false, false⟩ "dummy" dummyIsUp bus57 (by decide)⟩

/-- C18. For a name that the registry maps to `bus`, `downInterface` returns `true` if and
only if the unregistration succeeded (`unregisterCanBusService` returned `true`: a manager was
obtained and its reply to `tryUnregister` was `true`) and `down()` on `bus` succeeded. -/
theorem downInterface_true_iff (o : DownOutcome) (name : String) (w : World) (bus : CanBus)
    (hfound : StdMap.find w.mCanBuses name = some bus) :
    ((downInterface o name w).1 = true ↔
        ((unregisterCanBusService o name bus
            { w with mCanBuses := StdMap.erase w.mCanBuses name }).1 = true ∧
          o.down = true)) ∧
      ((unregisterCanBusService o name bus
          { w with mCanBuses := StdMap.erase w.mCanBuses name }).1 = true ↔
        (o.getService = true ∧ o.tryUnregister = some true)) := by
  rw [downInterface_of_present o name w bus hfound]
  obtain ⟨g, t, d⟩ := o
  cases g <;> cases d <;> rcases t with _ | _ | _ <;>
    simp [unregisterCanBusService, tryUnregister, World.record]

theorem downInterface_true_iff_witness :
    StdMap.find dummyIsUp.mCanBuses "dummy" = some bus57 ∧
    (((downInterface noManager "dummy" dummyIsUp).1 = true ↔
        ((unregisterCanBusService noManager "dummy" bus57
            { dummyIsUp with mCanBuses := StdMap.erase dummyIsUp.mCanBuses "dummy" }).1
            = true ∧
          noManager.down = true)) ∧
      ((unregisterCanBusService noManager "dummy" bus57
          { dummyIsUp with mCanBuses := StdMap.erase dummyIsUp.mCanBuses "dummy" }).1
          = true ↔
        (noManager.getService = true ∧ noManager.tryUnregister = some true))) :=
  ⟨by decide, downInterface_true_iff noManager "dummy" dummyIsUp bus57 (by decide)⟩

/-- C19. In every state, for every name and every outcome of the unregistration and of the
deactivation, the name is not a key of the registry after `downInterface` of that name, also
when `downInterface` returns `false`. -/
theorem downInterface_removes_name (o : DownOutcome) (name : String) (w : World) :
    StdMap.find (downInterface o name w).2.mCanBuses name = none := by
  cases hfound : StdMap.find w.mCanBuses name with
  | none => rw [downInterface_of_absent o name w hfound]; exact hfound
  | some bus =>
    rw [downInterface_of_present o name w bus hfound]
    exact StdMap.find_erase_self _ _

/-! ## The invariant of the registry -/

theorem StdMap.find_erase_ne (m : StdMap) (key other : String) (h : other ≠ key) :
    StdMap.find (StdMap.erase m key) other = StdMap.find m other := by
  induction m with
  | nil => rfl
  | cons e rest ih =>
    obtain ⟨k, v⟩ := e
    by_cases h1 : k = key
    · subst h1
      simp [StdMap.erase, StdMap.find, ih, Ne.symm h]
    · by_cases h2 : k = other
      · subst h2
        simp [StdMap.erase, StdMap.find, h1]
      · simp [StdMap.erase, StdMap.find, h1, h2, ih]

theorem run_append_singleton (ops : List Op) (op : Op) (w : World) :
    run (ops ++ [op]) w = Op.step (run ops w) op := by
  simp [run, List.foldl_append]

/-- An entry stays registered when calls that do not concern its bus object are appended to
the log and the directory keeps resolving its name. -/
theorem EntryRegistered.extend {w w2 : World} {name : String} {bus : CanBus}
    (h : EntryRegistered w name bus) (cs : List Call) (hlog : w2.log = w.log ++ cs)
    (hcs : ∀ c ∈ cs, c.busOf ≠ some bus)
    (hdir : StdMap.find w2.directory name = StdMap.find w.directory name) :
    EntryRegistered w2 name bus := by
  obtain ⟨hup, ⟨before, since, hsplit, hsince⟩, hres⟩ := h
  refine ⟨?_, ⟨before, since ++ cs, ?_, ?_⟩, ?_⟩
  · rw [hlog]; exact List.mem_append_left _ hup
  · rw [hlog, hsplit]; simp
  · intro c hc
    rcases List.mem_append.mp hc with hc | hc
    · exact hsince c hc
    · exact hcs c hc
  · rw [hdir]; exact hres

/-- A bring-up that constructs `bus` and does not end in `OK` keeps the invariant: the
registry and the directory are as before and the calls appended are on the new object. -/
theorem RegistryInvariant.of_failed_up {w w2 : World} (h : RegistryInvariant w) (bus : CanBus)
    (cs : List Call) (hid : bus.id = w.allocated) (hreg : w2.mCanBuses = w.mCanBuses)
    (hdir : w2.directory = w.directory) (hlog : w2.log = w.log ++ cs)
    (halloc : w2.allocated = w.allocated + 1) (hcs : ∀ c ∈ cs, c.busOf = some bus) :
    RegistryInvariant w2 := by
  obtain ⟨hlt, hinj, hent⟩ := h
  refine ⟨?_, ?_, ?_⟩
  · intro name b hb
    rw [hreg] at hb
    have := hlt name b hb
    omega
  · intro name other b hb hb2
    rw [hreg] at hb hb2
    exact hinj name other b hb hb2
  · intro name b hb
    rw [hreg] at hb
    refine (hent name b hb).extend cs hlog ?_ (by rw [hdir])
    intro c hc heq
    have hsame : bus = b := Option.some.inj ((hcs c hc).symm.trans heq)
    have := hlt name b hb
    rw [← hsame] at this
    omega

theorem upInterface_invariant (o : UpOutcome) (config : BusConfig) (w : World)
    (h : RegistryInvariant w) : RegistryInvariant (upInterface o config w).2 := by
  cases hname : isValidName config.name with
  | false => rw [upInterface_of_invalid o config w hname]; exact h
  | true =>
    cases hfound : StdMap.find w.mCanBuses config.name with
    | some bus => rw [upInterface_of_present o config w bus hname hfound]; exact h
    | none =>
      cases hnew : newBusService config w.allocated with
      | error r => rw [upInterface_of_rejected o config w r hname hfound hnew]; exact h
      | ok bus =>
        have hid := newBusService_id config w.allocated bus hnew
        by_cases hup : o.up = .OK
        · cases hreg : o.registerAsService with
          | false =>
            rw [upInterface_of_register_failed o config w bus hname hfound hnew hup hreg]
            refine h.of_failed_up bus _ hid rfl rfl rfl rfl ?_
            intro c hc
            simp only [List.mem_cons, List.mem_singleton, List.not_mem_nil, or_false] at hc
            rcases hc with hc | hc | hc | hc <;> rw [hc] <;> rfl
          | true =>
            rw [upInterface_of_registered o config w bus hname hfound hnew hup hreg]
            obtain ⟨hlt, hinj, hent⟩ := h
            refine ⟨?_, ?_, ?_⟩
            · intro name b hb
              by_cases hn : name = config.name
              · subst hn
                rw [StdMap.find_assign_self] at hb
                have : bus = b := Option.some.inj hb
                subst this
                simp only
                omega
              · rw [StdMap.find_assign_ne _ _ _ _ hn] at hb
                have := hlt name b hb
                simp only
                omega
            · intro name other b hb hb2
              by_cases hn : name = config.name
              · by_cases hn2 : other = config.name
                · rw [hn, hn2]
                · subst hn
                  rw [StdMap.find_assign_self] at hb
                  rw [StdMap.find_assign_ne _ _ _ _ hn2] at hb2
                  have : bus = b := Option.some.inj hb
                  subst this
                  have := hlt other bus hb2
                  omega
              · rw [StdMap.find_assign_ne _ _ _ _ hn] at hb
                by_cases hn2 : other = config.name
                · subst hn2
                  rw [StdMap.find_assign_self] at hb2
                  have : bus = b := Option.some.inj hb2
                  subst this
                  have := hlt name bus hb
                  omega
                · rw [StdMap.find_assign_ne _ _ _ _ hn2] at hb2
                  exact hinj name other b hb hb2
            · intro name b hb
              by_cases hn : name = config.name
              · subst hn
                rw [StdMap.find_assign_self] at hb
                have : bus = b := Option.some.inj hb
                subst this
                refine ⟨by simp, ⟨w.log ++ [.setErrorCallback bus config.name, .up bus .OK],
                  [], by simp, by simp⟩, StdMap.find_assign_self _ _ _⟩
              · rw [StdMap.find_assign_ne _ _ _ _ hn] at hb
                refine (hent name b hb).extend
                  [.setErrorCallback bus config.name, .up bus .OK,
                    .registerAsService bus config.name true] rfl ?_
                  (StdMap.find_assign_ne _ _ _ _ hn)
                intro c hc heq
                have hcb : c.busOf = some bus := by
                  simp only [List.mem_cons, List.mem_singleton, List.not_mem_nil,
                    or_false] at hc
                  rcases hc with hc | hc | hc <;> rw [hc] <;> rfl
                have hsame : bus = b := Option.some.inj (hcb.symm.trans heq)
                have := hlt name b hb
                rw [← hsame] at this
                omega
        · rw [upInterface_of_up_failed o config w bus hname hfound hnew hup]
          refine h.of_failed_up bus _ hid rfl rfl rfl rfl ?_
          intro c hc
          simp only [List.mem_cons, List.mem_singleton, List.not_mem_nil, or_false] at hc
          rcases hc with hc | hc <;> rw [hc] <;> rfl

theorem downInterface_invariant (o : DownOutcome) (name : String) (w : World)
    (h : RegistryInvariant w) : RegistryInvariant (downInterface o name w).2 := by
  cases hfound : StdMap.find w.mCanBuses name with
  | none => rw [downInterface_of_absent o name w hfound]; exact h
  | some gone =>
    rw [downInterface_of_present o name w gone hfound]
    obtain ⟨hlt, hinj, hent⟩ := h
    have hkept : ∀ m b, StdMap.find (StdMap.erase w.mCanBuses name) m = some b →
        m ≠ name ∧ StdMap.find w.mCanBuses m = some b := by
      intro m b hb
      have hm : m ≠ name := by
        intro hm
        rw [hm, StdMap.find_erase_self] at hb
        exact Option.noConfusion hb
      exact ⟨hm, by rw [StdMap.find_erase_ne _ _ _ hm] at hb; exact hb⟩
    refine ⟨?_, ?_, ?_⟩
    · intro m b hb
      exact hlt m b (hkept m b hb).2
    · intro m other b hb hb2
      exact hinj m other b (hkept m b hb).2 (hkept other b hb2).2
    · intro m b hb
      obtain ⟨hm, hold⟩ := hkept m b hb
      have hne : gone ≠ b := fun hsame => hm (hinj m name b hold (hsame ▸ hfound))
      refine (hent m b hold).extend _ rfl ?_ ?_
      · intro c hc heq
        simp only [List.mem_cons, List.mem_append, List.mem_singleton, List.not_mem_nil,
          or_false] at hc
        rcases hc with hc | hc | hc
        · rw [hc] at heq; exact Option.noConfusion heq
        · split at hc
          · simp only [List.mem_singleton] at hc
            rw [hc] at heq
            exact hne (Option.some.inj heq)
          · simp at hc
        · rw [hc] at heq
          exact hne (Option.some.inj heq)
      · simp only
        split
        · exact StdMap.find_erase_ne _ _ _ hm
        · rfl

theorem initial_invariant : RegistryInvariant World.initial := by
  refine ⟨?_, ?_, ?_⟩ <;> intro name <;> simp [World.initial, StdMap.find]

theorem run_invariant (ops : List Op) (w : World) (h : RegistryInvariant w) :
    RegistryInvariant (run ops w) := by
  induction ops using List.reverseRecOn with
  | nil => exact h
  | append_singleton ops op ih =>
    rw [run_append_singleton]
    cases op with
    | up o config => exact upInterface_invariant o config _ ih
    | down o name => exact downInterface_invariant o name _ ih

/-- C20. Reachable-state invariant: in every state reached from the initial, empty registry
by a sequence of `upInterface` and `downInterface` calls with any collaborator outcomes,
every name in the registry is mapped to a bus object whose activation `up()` returned `OK`
and whose registration under that name succeeded and has been followed by no call on or about
that object, so by no `tryUnregister` and no `down()`, which every unregistration attempt
entails; the directory resolves the name to the object. -/
theorem reachable_entries_registered (ops : List Op) (name : String) (bus : CanBus)
    (h : StdMap.find (run ops World.initial).mCanBuses name = some bus) :
    Call.up bus .OK ∈ (run ops World.initial).log ∧
      (∃ before since,
        (run ops World.initial).log =
          before ++ Call.registerAsService bus name true :: since ∧
        ∀ c ∈ since, c.busOf ≠ some bus) ∧
      StdMap.find (run ops World.initial).directory name = some bus :=
  (run_invariant ops World.initial initial_invariant).2.2 name bus h

theorem reachable_entries_registered_witness :
    StdMap.find (run sampleOps World.initial).mCanBuses "dummy" = some secondBus57 ∧
    (Call.up secondBus57 .OK ∈ (run sampleOps World.initial).log ∧
      (∃ before since,
        (run sampleOps World.initial).log =
          before ++ Call.registerAsService secondBus57 "dummy" true :: since ∧
        ∀ c ∈ since, c.busOf ≠ some secondBus57) ∧
      StdMap.find (run sampleOps World.initial).directory "dummy" = some secondBus57) :=
  ⟨by decide, reachable_entries_registered sampleOps "dummy" secondBus57 (by decide)⟩

/-! ## The calls of one bring-up -/

/-- The four ways in which `upInterface` ends: rejected at validation, with no call made and
the state as it was; activation failed; registration failed and rolled back; registered. -/
theorem upInterface_cases (o : UpOutcome) (config : BusConfig) (w : World) :
    ((isValidName config.name = false ∨ (StdMap.find w.mCanBuses config.name).isSome = true ∨
        ∃ r, newBusService config w.allocated = .error r) ∧
      (upInterface o config w).1 ≠ .OK ∧ (upInterface o config w).2 = w) ∨
    (∃ bus, isValidName config.name = true ∧ StdMap.find w.mCanBuses config.name = none ∧
      newBusService config w.allocated = .ok bus ∧ o.up ≠ .OK ∧
      (upInterface o config w).1 = o.up ∧
      (upInterface o config w).2.mCanBuses = w.mCanBuses ∧
      callsSince w (upInterface o config w).2 =
        [.setErrorCallback bus config.name, .up bus o.up]) ∨
    (∃ bus, isValidName config.name = true ∧ StdMap.find w.mCanBuses config.name = none ∧
      newBusService config w.allocated = .ok bus ∧ o.up = .OK ∧
      o.registerAsService = false ∧
      (upInterface o config w).1 = .BAD_SERVICE_NAME ∧
      (upInterface o config w).2.mCanBuses = w.mCanBuses ∧
      callsSince w (upInterface o config w).2 =
        [.setErrorCallback bus config.name, .up bus .OK,
          .registerAsService bus config.name false, .down bus o.down]) ∨
    (∃ bus, isValidName config.name = true ∧ StdMap.find w.mCanBuses config.name = none ∧
      newBusService config w.allocated = .ok bus ∧ o.up = .OK ∧
      o.registerAsService = true ∧
      (upInterface o config w).1 = .OK ∧
      (upInterface o config w).2.mCanBuses = StdMap.assign w.mCanBuses config.name bus ∧
      callsSince w (upInterface o config w).2 =
        [.setErrorCallback bus config.name, .up bus .OK,
          .registerAsService bus config.name true]) := by
  cases hname : isValidName config.name with
  | false =>
    refine Or.inl ⟨Or.inl rfl, ?_, ?_⟩ <;> rw [upInterface_of_invalid o config w hname]
    simp
  | true =>
    cases hfound : StdMap.find w.mCanBuses config.name with
    | some bus =>
      refine Or.inl ⟨Or.inr (Or.inl rfl), ?_, ?_⟩ <;>
        rw [upInterface_of_present o config w bus hname hfound]
      simp
    | none =>
      cases hnew : newBusService config w.allocated with
      | error r =>
        refine Or.inl ⟨Or.inr (Or.inr ⟨r, rfl⟩), ?_, ?_⟩ <;>
          rw [upInterface_of_rejected o config w r hname hfound hnew]
        rcases newBusService_error config w.allocated r hnew with hr | hr <;> simp [hr]
      | ok bus =>
        by_cases hup : o.up = .OK
        · cases hreg : o.registerAsService with
          | false =>
            have h := upInterface_of_register_failed o config w bus hname hfound hnew hup hreg
            exact Or.inr (Or.inr (Or.inl ⟨bus, rfl, rfl, rfl, hup, rfl, by rw [h], by rw [h],
              callsSince_append w _ _ (by rw [h])⟩))
          | true =>
            have h := upInterface_of_registered o config w bus hname hfound hnew hup hreg
            exact Or.inr (Or.inr (Or.inr ⟨bus, rfl, rfl, rfl, hup, rfl, by rw [h], by rw [h],
              callsSince_append w _ _ (by rw [h])⟩))
        · have h := upInterface_of_up_failed o config w bus hname hfound hnew hup
          exact Or.inr (Or.inl ⟨bus, rfl, rfl, rfl, hup, by rw [h], by rw [h],
            callsSince_append w _ _ (by rw [h])⟩)

/-- The calls of an `upInterface` that constructs `bus`, in order. -/
theorem upInterface_calls_of_constructed (o : UpOutcome) (config : BusConfig) (w : World)
    (bus : CanBus) (hname : isValidName config.name = true)
    (habsent : StdMap.find w.mCanBuses config.name = none)
    (hnew : newBusService config w.allocated = .ok bus) :
    callsSince w (upInterface o config w).2 =
      .setErrorCallback bus config.name :: .up bus o.up ::
        (if o.up = .OK then
          .registerAsService bus config.name o.registerAsService ::
            (if o.registerAsService = true then [] else [.down bus o.down])
        else []) := by
  by_cases hup : o.up = .OK
  · cases hreg : o.registerAsService with
    | false =>
      rw [callsSince_append w _ _
        (by rw [upInterface_of_register_failed o config w bus hname habsent hnew hup hreg])]
      simp [hup]
    | true =>
      rw [callsSince_append w _ _
        (by rw [upInterface_of_registered o config w bus hname habsent hnew hup hreg])]
      simp [hup]
  · rw [callsSince_append w _ _
      (by rw [upInterface_of_up_failed o config w bus hname habsent hnew hup])]
    simp [hup]

theorem downInterface_find_self (o : DownOutcome) (name : String) (w : World) :
    StdMap.find (downInterface o name w).2.mCanBuses name = none := by
  cases hfound : StdMap.find w.mCanBuses name with
  | none => rw [downInterface_of_absent o name w hfound]; exact hfound
  | some bus =>
    rw [downInterface_of_present o name w bus hfound]
    exact StdMap.find_erase_self _ _

/-! ## The life cycle of a name -/

/-- C21. Per-name state machine: after an `upInterface` that returned `OK` and a
`downInterface` of the same name, with any outcome of the unregistration and of the
deactivation, the name is absent from the registry again, so that the registry check of a
further `upInterface` does not reject it with `INVALID_STATE`; and a further `upInterface`
with that name, for a configuration for which the dispatch constructs a bus object, returns
`OK` when its activation and its registration succeed. -/
theorem upInterface_after_downInterface (o : UpOutcome) (d : DownOutcome) (config : BusConfig)
    (w : World) (hok : (upInterface o config w).1 = .OK) :
    StdMap.find (downInterface d config.name (upInterface o config w).2).2.mCanBuses
        config.name = none ∧
      ∀ (o3 : UpOutcome) (config3 : BusConfig) (bus3 : CanBus),
        config3.name = config.name →
        newBusService config3
          (downInterface d config.name (upInterface o config w).2).2.allocated = .ok bus3 →
        o3.up = .OK → o3.registerAsService = true →
        (upInterface o3 config3 (downInterface d config.name (upInterface o config w).2).2).1
          = .OK := by
  have habsent := downInterface_find_self d config.name (upInterface o config w).2
  refine ⟨habsent, ?_⟩
  intro o3 config3 bus3 hsame hnew hup hreg
  have hname := (upInterface_ok_inv o config w hok).1
  rw [upInterface_of_registered o3 config3 _ bus3 (by rw [hsame]; exact hname)
    (by rw [hsame]; exact habsent) hnew hup hreg]

theorem upInterface_after_downInterface_witness :
    (upInterface allUp dummy73 World.initial).1 = .OK ∧
    StdMap.find
      (downInterface noManager dummy73.name
        (upInterface allUp dummy73 World.initial).2).2.mCanBuses dummy73.name = none ∧
    (upInterface allUp dummy57
      (downInterface noManager dummy73.name (upInterface allUp dummy73 World.initial).2).2).1
      = .OK :=
  ⟨by decide,
    (upInterface_after_downInterface allUp noManager dummy73 World.initial (by decide)).1,
    (upInterface_after_downInterface allUp noManager dummy73 World.initial (by decide)).2
      allUp dummy57 secondBus57 (by decide) rfl (by decide) (by decide)⟩

/-! ## What a bus object is constructed from -/

/-- C22, as stated, fails for the virtual variant: two virtual configurations that differ in
the bitrate only make `upInterface` construct the same bus object, `CanBusVirtual` of the
interface name, and bring about the same result and state. -/
theorem upInterface_virtual_bitrate_counterexample :
    dummy57Fast.bitrate ≠ dummy57.bitrate ∧
      newBusService dummy57Fast World.initial.allocated = .ok bus57 ∧
      newBusService dummy57 World.initial.allocated = .ok bus57 ∧
      bus57.object = .CanBusVirtual "vcan57" ∧
      upInterface allUp dummy57Fast World.initial = upInterface allUp dummy57 World.initial :=
  ⟨by decide, rfl, rfl, rfl, by decide⟩

/-- C22, amended. The bus object that `upInterface` constructs for a valid name that is not
in the registry, and on which it makes its first call, is: for socketcan addressed by
interface name, `CanBusNative` of that name and of the configuration's bitrate; for slcan
addressed by tty name, `CanBusSlcan` of that name and of the configuration's bitrate; for the
virtual variant, `CanBusVirtual` of the interface name alone, the bitrate of the configuration
having no influence on the call. -/
theorem upInterface_constructs_from_config (o : UpOutcome) (config : BusConfig) (w : World)
    (hname : isValidName config.name = true)
    (habsent : StdMap.find w.mCanBuses config.name = none) :
    (∀ ifname, config.interfaceId = .socketcan (.ifname ifname) →
        (callsSince w (upInterface o config w).2).head? =
          some (.setErrorCallback ⟨w.allocated, .CanBusNative ifname config.bitrate⟩
            config.name)) ∧
      (∀ ttyname, config.interfaceId = .slcan (.ttyname ttyname) →
        (callsSince w (upInterface o config w).2).head? =
          some (.setErrorCallback ⟨w.allocated, .CanBusSlcan ttyname config.bitrate⟩
            config.name)) ∧
      (∀ ifname, config.interfaceId = .virtualif ifname →
        (callsSince w (upInterface o config w).2).head? =
            some (.setErrorCallback ⟨w.allocated, .CanBusVirtual ifname⟩ config.name) ∧
          ∀ bitrate, upInterface o { config with bitrate := bitrate } w
            = upInterface o config w) := by
  refine ⟨?_, ?_, ?_⟩
  · intro ifname hid
    have hnew : newBusService config w.allocated =
        .ok ⟨w.allocated, .CanBusNative ifname config.bitrate⟩ := by
      simp [newBusService, hid]
    rw [upInterface_calls_of_constructed o config w _ hname habsent hnew]
    rfl
  · intro ttyname hid
    have hnew : newBusService config w.allocated =
        .ok ⟨w.allocated, .CanBusSlcan ttyname config.bitrate⟩ := by
      simp [newBusService, hid]
    rw [upInterface_calls_of_constructed o config w _ hname habsent hnew]
    rfl
  · intro ifname hid
    have hnew : newBusService config w.allocated = .ok ⟨w.allocated, .CanBusVirtual ifname⟩ := by
      simp [newBusService, hid]
    refine ⟨?_, ?_⟩
    · rw [upInterface_calls_of_constructed o config w _ hname habsent hnew]
      rfl
    · intro bitrate
      simp [upInterface, newBusService, hid]

theorem upInterface_constructs_from_config_witness :
    (isValidName nativeCan0.name = true ∧
      StdMap.find dummyIsUp.mCanBuses nativeCan0.name = none ∧
      nativeCan0.interfaceId = .socketcan (.ifname "can0")) ∧
    (callsSince dummyIsUp (upInterface allUp nativeCan0 dummyIsUp).2).head? =
      some (.setErrorCallback ⟨dummyIsUp.allocated, .CanBusNative "can0" nativeCan0.bitrate⟩
        nativeCan0.name) :=
  ⟨⟨by decide, by decide, rfl⟩,
    (upInterface_constructs_from_config allUp nativeCan0 dummyIsUp (by decide)
      (by decide)).1 "can0" rfl⟩

/-! ## The calls that a bring-up makes -/

/-- C24. Whenever `upInterface` constructs a bus object `bus` (valid name, absent from the
registry, a configuration that the dispatch handles), `setErrorCallback` is its first call,
made on `bus` right before `up()`, and is made exactly once; and running the function object
that it installed has, in every state and with every collaborator behaviour, the effect on
the controller of `downInterface` with the configuration's name. -/
theorem upInterface_sets_error_callback (o : UpOutcome) (config : BusConfig) (w : World)
    (bus : CanBus) (hname : isValidName config.name = true)
    (habsent : StdMap.find w.mCanBuses config.name = none)
    (hnew : newBusService config w.allocated = .ok bus) :
    (∃ later, callsSince w (upInterface o config w).2 =
        .setErrorCallback bus config.name :: .up bus o.up :: later) ∧
      (callsSince w (upInterface o config w).2).countP Call.isSetErrorCallback = 1 ∧
      (callsSince w (upInterface o config w).2).countP Call.isUp = 1 ∧
      ∀ c ∈ callsSince w (upInterface o config w).2, c.isSetErrorCallback = true →
        ∀ (d : DownOutcome) (w2 : World),
          c.invokeErrorCallback d w2 = (downInterface d config.name w2).2 := by
  have hcalls := upInterface_calls_of_constructed o config w bus hname habsent hnew
  rw [hcalls]
  refine ⟨⟨_, rfl⟩, ?_, ?_, ?_⟩
  · by_cases hup : o.up = .OK <;> cases hreg : o.registerAsService <;>
      simp [hup, Call.isSetErrorCallback, List.countP_cons]
  · by_cases hup : o.up = .OK <;> cases hreg : o.registerAsService <;>
      simp [hup, Call.isUp, List.countP_cons]
  · intro c hc hset d w2
    cases c with
    | setErrorCallback b n =>
      have hn : n = config.name := by
        by_cases hup : o.up = .OK <;> cases hreg : o.registerAsService <;>
          simp [hup, hreg] at hc <;> exact hc.2
      rw [hn]
      rfl
    | up b r => exact Bool.noConfusion hset
    | registerAsService b n ok => exact Bool.noConfusion hset
    | down b ok => exact Bool.noConfusion hset
    | getService a => exact Bool.noConfusion hset
    | tryUnregister n b r => exact Bool.noConfusion hset

theorem upInterface_sets_error_callback_witness :
    (isValidName dummy57.name = true ∧
      StdMap.find World.initial.mCanBuses dummy57.name = none ∧
      newBusService dummy57 World.initial.allocated = .ok bus57) ∧
    ((∃ later, callsSince World.initial (upInterface allUp dummy57 World.initial).2 =
        .setErrorCallback bus57 dummy57.name :: .up bus57 allUp.up :: later) ∧
      (callsSince World.initial (upInterface allUp dummy57 World.initial).2).countP
        Call.isSetErrorCallback = 1 ∧
      (callsSince World.initial (upInterface allUp dummy57 World.initial).2).countP
        Call.isUp = 1 ∧
      ∀ c ∈ callsSince World.initial (upInterface allUp dummy57 World.initial).2,
        c.isSetErrorCallback = true →
        ∀ (d : DownOutcome) (w2 : World),
          c.invokeErrorCallback d w2 = (downInterface d dummy57.name w2).2) :=
  ⟨⟨by decide, by decide, rfl⟩,
    upInterface_sets_error_callback allUp dummy57 World.initial bus57 (by decide) (by decide)
      rfl⟩

/-- C25. When `upInterface` rejects a call at validation (invalid name, name already in the
registry, or a configuration for which the dispatch constructs nothing: unhandled addressing
variant or unsupported kind), it makes no collaborator call at all, so that no error callback
is set and no `up()`, registration or `down()` is invoked, and it leaves the state as it
was. -/
theorem upInterface_rejection_makes_no_call (o : UpOutcome) (config : BusConfig) (w : World)
    (h : isValidName config.name = false ∨
      (StdMap.find w.mCanBuses config.name).isSome = true ∨
      ∃ r, newBusService config w.allocated = .error r) :
    callsSince w (upInterface o config w).2 = [] ∧ (upInterface o config w).2 = w := by
  have hsame : (upInterface o config w).2 = w := by
    rcases upInterface_cases o config w with hc | ⟨bus, hname, habsent, hnew, _⟩ |
      ⟨bus, hname, habsent, hnew, _⟩ | ⟨bus, hname, habsent, hnew, _⟩
    · exact hc.2.2
    all_goals
      rcases h with h | h | ⟨r, h⟩
      · rw [hname] at h; exact absurd h (by decide)
      · rw [habsent] at h; exact absurd h (by decide)
      · rw [hnew] at h; exact Except.noConfusion h
  exact ⟨by rw [hsame]; simp [callsSince], hsame⟩

theorem upInterface_rejection_makes_no_call_witness :
    (isValidName compatIndexed.name = false ∨
      (StdMap.find dummyIsUp.mCanBuses compatIndexed.name).isSome = true ∨
      ∃ r, newBusService compatIndexed dummyIsUp.allocated = .error r) ∧
    (callsSince dummyIsUp (upInterface allUp compatIndexed dummyIsUp).2 = [] ∧
      (upInterface allUp compatIndexed dummyIsUp).2 = dummyIsUp) :=
  ⟨Or.inr (Or.inr ⟨.NOT_SUPPORTED, rfl⟩),
    upInterface_rejection_makes_no_call allUp compatIndexed dummyIsUp
      (Or.inr (Or.inr ⟨.NOT_SUPPORTED, rfl⟩))⟩

/-- C26. `upInterface` returns `OK` if and only if the name is valid, the name is absent from
the registry, the configuration is socketcan addressed by interface name, virtual, or slcan
addressed by tty name, the activation `up()` returns `OK` and the directory registration
succeeds. -/
theorem upInterface_ok_iff (o : UpOutcome) (config : BusConfig) (w : World) :
    (upInterface o config w).1 = .OK ↔
      (isValidName config.name = true ∧ StdMap.find w.mCanBuses config.name = none ∧
        ((∃ ifname, config.interfaceId = .socketcan (.ifname ifname)) ∨
          (∃ ifname, config.interfaceId = .virtualif ifname) ∨
          (∃ ttyname, config.interfaceId = .slcan (.ttyname ttyname))) ∧
        o.up = .OK ∧ o.registerAsService = true) := by
  have hshape : (∃ bus, newBusService config w.allocated = .ok bus) ↔
      ((∃ ifname, config.interfaceId = .socketcan (.ifname ifname)) ∨
        (∃ ifname, config.interfaceId = .virtualif ifname) ∨
        (∃ ttyname, config.interfaceId = .slcan (.ttyname ttyname))) := by
    unfold newBusService
    cases hid : config.interfaceId with
    | virtualif n => simp
    | socketcan sc => cases sc <;> simp
    | slcan sl => cases sl <;> simp
    | indexed i => simp
  constructor
  · intro h
    obtain ⟨hname, habsent, hnew, hup, hreg⟩ := upInterface_ok_inv o config w h
    exact ⟨hname, habsent, hshape.mp hnew, hup, hreg⟩
  · rintro ⟨hname, habsent, hshp, hup, hreg⟩
    obtain ⟨bus, hnew⟩ := hshape.mpr hshp
    rw [upInterface_of_registered o config w bus hname habsent hnew hup hreg]

/-- C27. During `upInterface`, `down()` is invoked on a bus object if and only if the
activation `up()` of that object returned `OK` and its directory registration failed. In
particular it is not invoked when `up()` reports an error, it is not invoked when
`upInterface` returns `OK`, and an object on which it is invoked is not in the registry
afterwards. -/
theorem upInterface_down_iff (o : UpOutcome) (config : BusConfig) (w : World) :
    (∀ bus, (∃ ok, Call.down bus ok ∈ callsSince w (upInterface o config w).2) ↔
        (Call.up bus .OK ∈ callsSince w (upInterface o config w).2 ∧
          Call.registerAsService bus config.name false ∈
            callsSince w (upInterface o config w).2)) ∧
      (∀ bus r, Call.up bus r ∈ callsSince w (upInterface o config w).2 → r ≠ .OK →
        (callsSince w (upInterface o config w).2).any Call.isDown = false) ∧
      ((upInterface o config w).1 = .OK →
        (callsSince w (upInterface o config w).2).any Call.isDown = false) ∧
      (∀ bus ok, Call.down bus ok ∈ callsSince w (upInterface o config w).2 →
        StdMap.find (upInterface o config w).2.mCanBuses config.name = none) := by
  rcases upInterface_cases o config w with ⟨_, hne, hsame⟩ |
    ⟨b, hname, habsent, hnew, hup, hres, hreg, hcalls⟩ |
    ⟨b, hname, habsent, hnew, hup, hfail, hres, hreg, hcalls⟩ |
    ⟨b, hname, habsent, hnew, hup, hok, hres, hreg, hcalls⟩
  · have hcalls : callsSince w (upInterface o config w).2 = [] := by
      rw [hsame]; simp [callsSince]
    rw [hcalls]
    simp
  · rw [hcalls]
    refine ⟨?_, ?_, ?_, ?_⟩
    · intro bus
      simp
    · intro bus r _ _
      rfl
    · intro _
      rfl
    · intro bus ok hmem
      simp at hmem
  · rw [hcalls]
    refine ⟨?_, ?_, ?_, ?_⟩
    · intro bus
      simp only [List.mem_cons, List.mem_singleton, List.not_mem_nil, or_false]
      constructor
      · rintro ⟨ok, h | h | h | h⟩
        · exact Call.noConfusion h
        · exact Call.noConfusion h
        · exact Call.noConfusion h
        · have hb : bus = b := (Call.down.inj h).1
          rw [hb]
          exact ⟨Or.inr (Or.inl rfl), Or.inr (Or.inr (Or.inl rfl))⟩
      · rintro ⟨h | h | h | h, _⟩
        · exact Call.noConfusion h
        · have hb : bus = b := (Call.up.inj h).1
          exact ⟨o.down, Or.inr (Or.inr (Or.inr (by rw [hb])))⟩
        · exact Call.noConfusion h
        · exact Call.noConfusion h
    · intro bus r hmem hr
      simp only [List.mem_cons, List.mem_singleton, List.not_mem_nil, or_false] at hmem
      rcases hmem with h | h | h | h
      · exact Call.noConfusion h
      · exact absurd (Call.up.inj h).2 hr
      · exact Call.noConfusion h
      · exact Call.noConfusion h
    · intro h
      rw [hres] at h
      exact Result.noConfusion h
    · intro bus ok _
      rw [hreg]
      exact habsent
  · rw [hcalls]
    refine ⟨?_, ?_, ?_, ?_⟩
    · intro bus
      simp
    · intro bus r _ _
      rfl
    · intro _
      rfl
    · intro bus ok hmem
      simp at hmem

theorem upInterface_down_iff_witness :
    (∃ ok, Call.down bus57 ok ∈
      callsSince World.initial (upInterface ⟨.OK, false, false⟩ dummy57 World.initial).2) ∧
    StdMap.find (upInterface ⟨.OK, false, false⟩ dummy57 World.initial).2.mCanBuses
      dummy57.name = none :=
  ⟨((upInterface_down_iff ⟨.OK, false, false⟩ dummy57 World.initial).1 bus57).mpr
      ⟨by decide, by decide⟩,
    (upInterface_down_iff ⟨.OK, false, false⟩ dummy57 World.initial).2.2.2 bus57 false
      (by decide)⟩

/-! ## Frame properties of the registry -/

namespace StdMap

theorem find_none_of_not_mem_keys (m : StdMap) (key : String) (h : key ∉ keys m) :
    find m key = none := by
  induction m with
  | nil => rfl
  | cons e rest ih =>
    obtain ⟨k, v⟩ := e
    simp only [keys, List.map_cons, List.mem_cons, not_or] at h
    have hk : ¬ k = key := fun hk => h.1 hk.symm
    simp only [find, hk, if_false]
    exact ih h.2

theorem length_assign_of_find_none (m : StdMap) (key : String) (value : CanBus)
    (h : find m key = none) : (assign m key value).length = m.length + 1 := by
  induction m with
  | nil => rfl
  | cons e rest ih =>
    obtain ⟨k, v⟩ := e
    by_cases h2 : k = key
    · simp [find, h2] at h
    · simp only [find, h2, if_false] at h
      by_cases h1 : key < k
      · simp [assign, h1]
      · simp [assign, h1, h2, ih h]

theorem length_erase_of_nodup (m : StdMap) (key : String) (bus : CanBus)
    (hfound : find m key = some bus) (hnodup : (keys m).Nodup) :
    (erase m key).length + 1 = m.length := by
  induction m with
  | nil => exact Option.noConfusion hfound
  | cons e rest ih =>
    obtain ⟨k, v⟩ := e
    simp only [keys, List.map_cons, List.nodup_cons] at hnodup
    by_cases h1 : k = key
    · subst h1
      have hrest : find rest k = none := find_none_of_not_mem_keys rest k hnodup.1
      simp [erase, erase_of_find_none rest k hrest]
    · simp only [find, h1, if_false] at hfound
      simp [erase, h1, ih hfound hnodup.2]

theorem mem_keys_assign (m : StdMap) (key other : String) (value : CanBus)
    (h : other ∈ keys (assign m key value)) : other = key ∨ other ∈ keys m := by
  induction m with
  | nil => simpa [assign, keys] using h
  | cons e rest ih =>
    obtain ⟨k, v⟩ := e
    by_cases h1 : key < k
    · simp only [assign, h1, if_true, keys, List.map_cons, List.mem_cons] at h
      simp only [keys, List.map_cons, List.mem_cons]
      tauto
    · by_cases h2 : k = key
      · subst h2
        simp only [assign, h1, if_true, if_false, keys, List.map_cons, List.mem_cons] at h
        simp only [keys, List.map_cons, List.mem_cons]
        tauto
      · simp only [assign, h1, h2, if_false, keys, List.map_cons, List.mem_cons] at h
        simp only [keys, List.map_cons, List.mem_cons]
        rcases h with h | h
        · exact Or.inr (Or.inl h)
        · rcases ih h with h | h
          · exact Or.inl h
          · exact Or.inr (Or.inr h)

theorem mem_keys_erase (m : StdMap) (key other : String) (h : other ∈ keys (erase m key)) :
    other ∈ keys m := by
  induction m with
  | nil => exact h
  | cons e rest ih =>
    obtain ⟨k, v⟩ := e
    by_cases h1 : k = key
    · simp only [erase, h1, if_true] at h
      simp only [keys, List.map_cons, List.mem_cons]
      exact Or.inr (ih h)
    · simp only [erase, h1, if_false, keys, List.map_cons, List.mem_cons] at h
      simp only [keys, List.map_cons, List.mem_cons]
      rcases h with h | h
      · exact Or.inl h
      · exact Or.inr (ih h)

end StdMap

/-- C28. Frame: for every name `m` other than the name an operation is called with, the
registry's entry for `m`, its presence and its bus object, is the same before and after
`upInterface` and before and after `downInterface`; an `upInterface` that returns `OK` adds
exactly one entry, that of its name; and a `downInterface` of a name that is in the registry
removes exactly one, that of its name (the keys of a `std::map` being unique). -/
theorem registry_frame (w : World) :
    (∀ (o : UpOutcome) (config : BusConfig) (m : String), m ≠ config.name →
        StdMap.find (upInterface o config w).2.mCanBuses m = StdMap.find w.mCanBuses m) ∧
      (∀ (d : DownOutcome) (name m : String), m ≠ name →
        StdMap.find (downInterface d name w).2.mCanBuses m = StdMap.find w.mCanBuses m) ∧
      (∀ (o : UpOutcome) (config : BusConfig), (upInterface o config w).1 = .OK →
        (upInterface o config w).2.mCanBuses.length = w.mCanBuses.length + 1 ∧
          StdMap.find w.mCanBuses config.name = none ∧
          (StdMap.find (upInterface o config w).2.mCanBuses config.name).isSome = true) ∧
      (∀ (d : DownOutcome) (name : String) (bus : CanBus),
        StdMap.find w.mCanBuses name = some bus → (StdMap.keys w.mCanBuses).Nodup →
        (downInterface d name w).2.mCanBuses.length + 1 = w.mCanBuses.length ∧
          StdMap.find (downInterface d name w).2.mCanBuses name = none) := by
  refine ⟨?_, ?_, ?_, ?_⟩
  · intro o config m hm
    rcases upInterface_cases o config w with ⟨_, _, hsame⟩ | ⟨b, _, _, _, _, _, hreg, _⟩ |
      ⟨b, _, _, _, _, _, _, hreg, _⟩ | ⟨b, _, _, _, _, _, _, hreg, _⟩
    · rw [hsame]
    · rw [hreg]
    · rw [hreg]
    · rw [hreg]
      exact StdMap.find_assign_ne _ _ _ _ hm
  · intro d name m hm
    cases hfound : StdMap.find w.mCanBuses name with
    | none => rw [downInterface_of_absent d name w hfound]
    | some bus =>
      rw [downInterface_of_present d name w bus hfound]
      exact StdMap.find_erase_ne _ _ _ hm
  · intro o config hok
    obtain ⟨hname, habsent, ⟨bus, hnew⟩, hup, hreg⟩ := upInterface_ok_inv o config w hok
    rw [upInterface_of_registered o config w bus hname habsent hnew hup hreg]
    refine ⟨StdMap.length_assign_of_find_none _ _ _ habsent, habsent, ?_⟩
    simp only
    rw [StdMap.find_assign_self]
    rfl
  · intro d name bus hfound hnodup
    rw [downInterface_of_present d name w bus hfound]
    exact ⟨StdMap.length_erase_of_nodup _ _ bus hfound hnodup, StdMap.find_erase_self _ _⟩

theorem nativeCan0_comes_up :
    (upInterface allUp nativeCan0 dummyIsUp).1 = .OK := by
  rw [upInterface_of_registered allUp nativeCan0 dummyIsUp ⟨1, .CanBusNative "can0" 500000⟩
    (by decide) (by decide) rfl (by decide) (by decide)]

theorem registry_frame_witness :
    ("dummy" ≠ nativeCan0.name ∧ (upInterface allUp nativeCan0 dummyIsUp).1 = .OK ∧
      StdMap.find dummyIsUp.mCanBuses "dummy" = some bus57 ∧
      (StdMap.keys dummyIsUp.mCanBuses).Nodup) ∧
    (StdMap.find (upInterface allUp nativeCan0 dummyIsUp).2.mCanBuses "dummy"
        = StdMap.find dummyIsUp.mCanBuses "dummy" ∧
      (upInterface allUp nativeCan0 dummyIsUp).2.mCanBuses.length
        = dummyIsUp.mCanBuses.length + 1 ∧
      (downInterface noManager "dummy" dummyIsUp).2.mCanBuses.length + 1
        = dummyIsUp.mCanBuses.length) :=
  ⟨⟨by decide, nativeCan0_comes_up, by decide, by decide⟩,
    (registry_frame dummyIsUp).1 allUp nativeCan0 "dummy" (by decide),
    ((registry_frame dummyIsUp).2.2.1 allUp nativeCan0 nativeCan0_comes_up).1,
    ((registry_frame dummyIsUp).2.2.2 noManager "dummy" bus57 (by decide) (by decide)).1⟩

/-! ## The keys of the registry in reachable states -/

namespace StdMap

theorem mem_keys_of_find (m : StdMap) (key : String) (bus : CanBus)
    (h : find m key = some bus) : key ∈ keys m := by
  induction m with
  | nil => exact Option.noConfusion h
  | cons e rest ih =>
    obtain ⟨k, v⟩ := e
    simp only [keys, List.map_cons, List.mem_cons]
    by_cases h1 : k = key
    · exact Or.inl h1.symm
    · simp only [find, h1, if_false] at h
      exact Or.inr (ih h)

/-- The assignment keeps the keys in strictly ascending order. -/
theorem sorted_keys_assign (m : StdMap) (key : String) (value : CanBus)
    (h : (keys m).Pairwise (· < ·)) : (keys (assign m key value)).Pairwise (· < ·) := by
  induction m with
  | nil => simp [assign, keys]
  | cons e rest ih =>
    obtain ⟨k, v⟩ := e
    have hk : ∀ x ∈ keys rest, k < x := by
      intro x hx
      simp only [keys, List.map_cons, List.pairwise_cons] at h
      exact h.1 x hx
    have hrest : (keys rest).Pairwise (· < ·) := by
      simp only [keys, List.map_cons, List.pairwise_cons] at h
      exact h.2
    by_cases h1 : key < k
    · simp only [assign, h1, if_true, keys, List.map_cons, List.pairwise_cons, List.mem_cons]
      refine ⟨?_, hk, hrest⟩
      intro x hx
      rcases hx with hx | hx
      · rw [hx]; exact h1
      · exact lt_trans h1 (hk x hx)
    · by_cases h2 : k = key
      · subst h2
        simp only [assign, h1, if_true, if_false, keys, List.map_cons, List.pairwise_cons]
        exact ⟨hk, hrest⟩
      · simp only [assign, h1, h2, if_false, keys, List.map_cons, List.pairwise_cons]
        refine ⟨?_, ih hrest⟩
        intro x hx
        rcases mem_keys_assign rest key x value hx with hx | hx
        · rw [hx]
          exact lt_of_le_of_ne (not_lt.mp h1) h2
        · exact hk x hx

/-- Removing a key keeps the keys in strictly ascending order. -/
theorem sorted_keys_erase (m : StdMap) (key : String) (h : (keys m).Pairwise (· < ·)) :
    (keys (erase m key)).Pairwise (· < ·) := by
  induction m with
  | nil => simp [erase, keys]
  | cons e rest ih =>
    obtain ⟨k, v⟩ := e
    simp only [keys, List.map_cons, List.pairwise_cons] at h
    by_cases h1 : k = key
    · simp only [erase, h1, if_true]
      exact ih h.2
    · simp only [erase, h1, if_false, keys, List.map_cons, List.pairwise_cons]
      exact ⟨fun x hx => h.1 x (mem_keys_erase rest key x hx), ih h.2⟩

end StdMap

/-- What holds of the keys of the registry in every reachable state: they are in strictly
ascending order, as in a `std::map`, and each of them is a valid name. -/
theorem step_keys (op : Op) (w : World)
    (h : (StdMap.keys w.mCanBuses).Pairwise (· < ·) ∧
      ∀ k ∈ StdMap.keys w.mCanBuses, isValidName k = true) :
    (StdMap.keys (Op.step w op).mCanBuses).Pairwise (· < ·) ∧
      ∀ k ∈ StdMap.keys (Op.step w op).mCanBuses, isValidName k = true := by
  cases op with
  | up o config =>
    simp only [Op.step]
    rcases upInterface_cases o config w with ⟨_, _, hsame⟩ | ⟨b, _, _, _, _, _, hreg, _⟩ |
      ⟨b, _, _, _, _, _, _, hreg, _⟩ | ⟨b, hname, _, _, _, _, _, hreg, _⟩
    · rw [hsame]; exact h
    · rw [hreg]; exact h
    · rw [hreg]; exact h
    · rw [hreg]
      refine ⟨StdMap.sorted_keys_assign _ _ _ h.1, ?_⟩
      intro k hk
      rcases StdMap.mem_keys_assign _ _ _ _ hk with hk | hk
      · rw [hk]; exact hname
      · exact h.2 k hk
  | down d name =>
    simp only [Op.step]
    cases hfound : StdMap.find w.mCanBuses name with
    | none => rw [downInterface_of_absent d name w hfound]; exact h
    | some bus =>
      rw [downInterface_of_present d name w bus hfound]
      exact ⟨StdMap.sorted_keys_erase _ _ h.1,
        fun k hk => h.2 k (StdMap.mem_keys_erase _ _ _ hk)⟩

theorem run_keys (ops : List Op) :
    (StdMap.keys (run ops World.initial).mCanBuses).Pairwise (· < ·) ∧
      ∀ k ∈ StdMap.keys (run ops World.initial).mCanBuses, isValidName k = true := by
  induction ops using List.reverseRecOn with
  | nil => simp [run, World.initial, StdMap.keys]
  | append_singleton ops op ih =>
    rw [run_append_singleton]
    exact step_keys op _ ih

/-- The keys of the registry are unique in every reachable state. -/
theorem run_keys_nodup (ops : List Op) :
    (StdMap.keys (run ops World.initial).mCanBuses).Nodup :=
  (run_keys ops).1.imp (fun h => ne_of_lt h)

/-- C29. Reachable-state invariant: in every state reached from the initial, empty registry
by a sequence of `upInterface` and `downInterface` calls, with any collaborator outcomes,
every key of the registry satisfies `isValidName`: it has between 1 and 32 characters, each
of them an ASCII letter, an ASCII digit or an underscore. -/
theorem reachable_keys_valid (ops : List Op) (name : String)
    (h : name ∈ StdMap.keys (run ops World.initial).mCanBuses) :
    isValidName name = true ∧ 1 ≤ name.length ∧ name.length ≤ 32 ∧
      ∀ c ∈ name.toList, c.isAlpha = true ∨ c.isDigit = true ∨ c = '_' :=
  ⟨(run_keys ops).2 name h, (isValidName_spec name).mp ((run_keys ops).2 name h)⟩

theorem reachable_keys_valid_witness :
    "dummy" ∈ StdMap.keys (run sampleOps World.initial).mCanBuses ∧
    (isValidName "dummy" = true ∧ 1 ≤ "dummy".length ∧ "dummy".length ≤ 32 ∧
      ∀ c ∈ "dummy".toList, c.isAlpha = true ∨ c.isDigit = true ∨ c = '_') :=
  ⟨by decide, reachable_keys_valid sampleOps "dummy" (by decide)⟩

end CanController
